import Mathlib

/-!
# Verification of the DB_Formatting option roll-up pipeline

A shallow embedding, in Lean 4, of the core transformations of the
`DB_Formatting-v2` repository (builders/db_details_tab.py,
builders/virtual_devices_tab.py, builders/hosts_tab.py,
builders/clusters_tab.py), together with theorems settling the claims of
the natural-language specification against the code.

Conventions used throughout:

* Python strings are Lean `String`s; a value that may be Python `None` is an
  `Option String` (with `none` for `None`).
* A pandas cell is a `Cell`: `na` models `NaN`/`None` holes, `s`/`i` model
  string/integer cells, and `blob`/`blobBad` model an embedded `raw_data`
  JSON payload that parses to a dict / fails to parse (the embedding carries
  payloads pre-parsed, since the claims never depend on JSON syntax;
  a dict-typed `raw_data`, which `_fix_vmware_row` skips because it is not a
  `str` and `_override_vmware_sizing` turns into `{}` via its exception
  handlers, behaves exactly like `blobBad` there and is modelled by it).
* A DataFrame row is an association list `Row = List (String × Cell)` read by
  first match; pandas column assignment (`df[c] = …`) replaces the value at
  an existing key in place or appends a new key at the end, which is what
  `dictInsert` does.
* Python `dict`s are association lists looked up by first match (`dictGet`);
  a Python dict comprehension that inverts a dict is `pyInvert`, which keeps
  the first-insertion position of a key and lets the latest value win, as
  Python dicts do.
* `pandas.sort_values` on one key only needs to order by that key for the
  claims below; it is modelled by a stable insertion sort descending on an
  integer rank (`sortDesc`) with NaN ranked below every number
  (`na_position="last"`).  None of the proved statements depends on the
  order of rank-equal rows, so the instability of pandas' default quicksort
  is immaterial.
* `groupby` group keys are kept in first-occurrence order rather than
  pandas' sorted order; this permutes output rows only, and no claim
  mentions row order.  As in pandas, rows whose group key is `NaN` are
  dropped from the grouping.
-/

/-! ## Python string primitives -/

/-- Python `str.lower()` (ASCII case folding, which is all the repository's
inputs use), written on the underlying character list so that it evaluates
by kernel reduction. -/
def pyLower (s : String) : String := ⟨s.data.map Char.toLower⟩

/-- Python `str.strip()`: drop leading and trailing whitespace. -/
def pyStrip (s : String) : String :=
  ⟨(((s.data.dropWhile Char.isWhitespace).reverse.dropWhile
      Char.isWhitespace).reverse)⟩

/-- The key normalisation used for `device_key` / `db_key` / `opt_key` in
`build_db_details_df`: `.str.lower().str.strip()`. -/
def normKey (s : String) : String := pyStrip (pyLower s)

/-! ## Dictionary helpers (Python `dict` on association lists) -/

/-- First-match lookup, i.e. Python `d.get(k)` / `d[k]` returning `none` when
the key is absent. -/
def dictGet {α β : Type} [BEq α] (d : List (α × β)) (k : α) : Option β :=
  (d.find? (fun p => p.1 == k)).map (·.2)

/-- Python `d[k] = v`: replace the value at an existing key (keeping its
position — keys are unique in a Python dict, so replacing the first
occurrence suffices) or append the new key at the end. -/
def dictInsert {α β : Type} [BEq α] : List (α × β) → α → β → List (α × β)
  | [], k, v => [(k, v)]
  | p :: ps, k, v => if p.1 == k then (k, v) :: ps else p :: dictInsert ps k v

/-- Python `{v: k for k, v in d.items()}`. -/
def pyInvert {α β : Type} [BEq β] (d : List (α × β)) : List (β × α) :=
  d.foldl (fun acc p => dictInsert acc p.2 p.1) []

/-- Python `max(xs, key=f)` on a non-empty list: the **first** element whose
key is maximal (Python's `max` keeps the first maximal element). -/
def pyMaxBy {α : Type} (f : α → Int) : List α → Option α
  | [] => none
  | x :: xs => some (xs.foldl (fun best y => if f best < f y then y else best) x)

/-! ## The priority/symbol tables

`builders/db_details_tab.py` lines 29–44 (`OPTION_PRIORITY`, `OPTION_SYMBOL`,
keyed by result category), and `builders/hosts_tab.py` lines 11–12
(`SYM2PRIO`, keyed by display symbol, and `PRIO2SYM`, its Python dict
inversion).  `builders/clusters_tab.py` line 10 re-inverts `PRIO2SYM`. -/

def OPTION_PRIORITY : List (Option String × Int) :=
  [(some "used", 4), (some "historical", 3), (some "cloned", 2),
   (some "verify", 1), (some "", 0), (none, 0)]

def OPTION_SYMBOL : List (Option String × String) :=
  [(some "used", "+"), (some "historical", "~"), (some "cloned", "#"),
   (some "verify", "^"), (some "", ""), (none, "")]

def SYM2PRIO : List (Option String × Int) :=
  [(some "+", 4), (some "~", 3), (some "#", 2), (some "^", 1),
   (some "", 0), (none, 0)]

/-- `PRIO2SYM = {v: k for k, v in SYM2PRIO.items()}` — note that the keys
`""` and `None` of `SYM2PRIO` share the value `0`, so the later entry wins:
`PRIO2SYM[0]` is Python `None`, not `""`. -/
def PRIO2SYM : List (Int × Option String) := pyInvert SYM2PRIO

/-- `builders/clusters_tab.py`: `SYM2PRIO = {v: k for k, v in PRIO2SYM.items()}`. -/
def CLUSTER_SYM2PRIO : List (Option String × Int) := pyInvert PRIO2SYM

/-- `virtual_devices_tab.py` imports `OPTION_PRIORITY` under the alias
`VM_OPTION_PRIORITY`. -/
def VM_OPTION_PRIORITY : List (Option String × Int) := OPTION_PRIORITY

/-! ## Generic list machinery

`pandas.sort_values(..., ascending=False)` followed by
`drop_duplicates(subset=keys)` (keep first) is modelled by a stable
insertion sort on an integer rank (descending), followed by a
keep-first-per-key deduplication. -/

/-- Insert `x` into `l`, keeping `l`'s order, before the first element of
strictly smaller rank (stable descending insertion). -/
def insDesc {α : Type} (f : α → Int) (x : α) : List α → List α
  | [] => [x]
  | y :: ys => if f y < f x then x :: y :: ys else y :: insDesc f x ys

/-- Stable insertion sort, descending on `f`. -/
def sortDesc {α : Type} (f : α → Int) : List α → List α
  | [] => []
  | x :: xs => insDesc f x (sortDesc f xs)

/-- Helper for `dedupByKeys`: drop every row whose key was already seen. -/
def dedupByKeysAux {α κ : Type} [DecidableEq κ] (key : α → κ) (seen : List κ) :
    List α → List α
  | [] => []
  | x :: xs =>
    if key x ∈ seen then dedupByKeysAux key seen xs
    else x :: dedupByKeysAux key (key x :: seen) xs

/-- `drop_duplicates(subset=…, keep="first")`: keep the first row for each
key, in order of first occurrence. -/
def dedupByKeys {α κ : Type} [DecidableEq κ] (key : α → κ) (l : List α) :
    List α :=
  dedupByKeysAux key [] l

/-! ## Database Rollup (`build_db_details_df`, db_details_tab.py lines 47–135)

One evidence record of "Options Usage Evidence.json".  Identity fields the
transform never reads are omitted; `result` is `Option String` because the
field may be null.  The roll-up portion of `build_db_details_df` depends on
exactly these fields. -/

structure EvRow where
  device_name : String
  database_name : String
  option_name : String
  result : Option String
  dbid : String
  deriving DecidableEq, Repr

/-- `df_opt["device_key"] = df_opt["device_name"].str.lower().str.strip()`. -/
def devKey (r : EvRow) : String := normKey r.device_name

/-- `df_opt["db_key"]`. -/
def dbKey (r : EvRow) : String := normKey r.database_name

/-- `df_opt["opt_key"]`. -/
def optKey (r : EvRow) : String := normKey r.option_name

/-- `df_opt["prio"] = df_opt["result"].str.lower().map(OPTION_PRIORITY)`:
`none` is a priority cell that is `NaN` (result string not a key of the
table). -/
def resultPrio (result : Option String) : Option Int :=
  dictGet OPTION_PRIORITY (result.map pyLower)

/-- `df_best["symbol"] = df_best["result"].str.lower().map(OPTION_SYMBOL)`
followed by the pivot's `.fillna("")`: an unrecognised result renders as
the empty symbol. -/
def resultSymbolFilled (result : Option String) : String :=
  (dictGet OPTION_SYMBOL (result.map pyLower)).getD ""

/-- Sort key of `sort_values("prio", ascending=False)`: `NaN` priorities sort
after every number (`na_position="last"`), so they rank below the smallest
table priority `0`. -/
def rank (p : Option Int) : Int :=
  match p with
  | none => -1
  | some v => v

/-- Row rank used by the best-result sort. -/
def evRank (r : EvRow) : Int := rank (resultPrio r.result)

/-- The `(device_key, db_key, opt_key)` triple of an evidence row. -/
def tripleKey (r : EvRow) : String × String × String :=
  (devKey r, dbKey r, optKey r)

/-- Lines 74–78: `df_opt.sort_values("prio", ascending=False)
.drop_duplicates(subset=["device_key", "db_key", "opt_key"])`. -/
def dfBest (ev : List EvRow) : List EvRow :=
  dedupByKeys tripleKey (sortDesc evRank ev)

/-- The cell of the pivoted wide matrix (lines 81–89) at row
`(device_key, db_key)` and column `opt_key`: the winning row's symbol, or
the empty symbol where no evidence row produced that cell (`.fillna("")`). -/
def pivotCell (ev : List EvRow) (t : String × String × String) : String :=
  match (dfBest ev).find? (fun r => decide (tripleKey r = t)) with
  | some r => resultSymbolFilled r.result
  | none => ""

/-- The option cell of the final Database Details row for an inventory
record `(device_name, database_name)` and option column `opt` — the
left-merge of the pivot matrix onto the inventory by `(device_key, db_key)`
(lines 98–103) followed by `.fillna("")`: a base row without a matching
matrix row gets `NaN` → `""`, and a matching matrix row contributes its
(already `""`-filled) cell. -/
def dbDetailsOptionCell (ev : List EvRow) (device_name database_name opt : String) :
    String :=
  let dk := normKey device_name
  let bk := normKey database_name
  if (dfBest ev).any (fun r => decide (devKey r = dk ∧ dbKey r = bk)) then
    pivotCell ev (dk, bk, opt)
  else ""

/-! ### Final deduplication (lines 124–133)

The duplicate-removal stage acts on the merged frame; whether a row is kept
depends only on its `device_name`, `database_name` and (post-`fillna`)
`dbid` cells, so the stage is modelled on rows carrying exactly those.
`df_final["_keep"] = df_final["dbid"].astype(bool)` on the string dbid
column is emptiness: `bool("") == False`. -/

structure FinalRow where
  device_name : String
  database_name : String
  dbid : String
  deriving DecidableEq, Repr

/-- `_keep` as a sort rank: rows with a truthy dbid sort first
(`sort_values("_keep", ascending=False)`). -/
def keepRank (r : FinalRow) : Int := if r.dbid ≠ "" then 1 else 0

/-- The `(device_name, database_name)` dedup key (the raw names, not the
normalised join keys). -/
def pairKey (r : FinalRow) : String × String := (r.device_name, r.database_name)

/-- Lines 127–131: sort `_keep` descending, then
`drop_duplicates(subset=["device_name", "database_name"], keep="first")`. -/
def dedupFinal (rows : List FinalRow) : List FinalRow :=
  dedupByKeys pairKey (sortDesc keepRank rows)

/-! ## A pandas DataFrame model

Used for the Virtual Device, Host and Cluster builders, whose inputs and
outputs are frames of heterogeneous cells. -/

/-- A value inside an embedded `raw_data` JSON payload. -/
inductive PVal where
  | s (v : String)
  | i (v : Int)
  deriving DecidableEq, Repr

/-- A pandas cell.  `na` is a `NaN`/`None` hole; `blob` is a `raw_data`
string that `json.loads`/`ast.literal_eval` parses to a dict (carried
pre-parsed); `blobBad` is a non-blank `raw_data` string that fails to parse
(a dict-typed `raw_data` behaves identically wherever the code touches it
and is modelled by `blobBad` too, see the module comment). -/
inductive Cell where
  | na
  | s (v : String)
  | i (v : Int)
  | blob (j : List (String × PVal))
  | blobBad
  deriving DecidableEq, Repr

/-- A row, as the association of column label to cell. -/
abbrev Row := List (String × Cell)

/-- A frame: its column labels in order, and its rows. -/
structure DF where
  cols : List String
  rows : List Row
  deriving DecidableEq, Repr

/-- Read a cell, with default `d` for a missing column. -/
def rowGetD (r : Row) (c : String) (d : Cell) : Cell :=
  ((r.find? (fun p => p.1 == c)).map (·.2)).getD d

/-- Read a cell; a column a row does not carry reads as `NaN` (as it does
after a pandas reindex/merge). -/
def rowGet (r : Row) (c : String) : Cell := rowGetD r c Cell.na

/-- Write a cell, pandas-style: replace in place or append at the end. -/
def rowSet (r : Row) (c : String) (v : Cell) : Row := dictInsert r c v

/-- Python truthiness of a cell.  Note that `NaN` is a float and therefore
**truthy** in Python, unlike `None` and `""`. -/
def cellTruthy : Cell → Bool
  | Cell.na => true
  | Cell.s v => v ≠ ""
  | Cell.i v => v ≠ 0
  | Cell.blob j => !j.isEmpty
  | Cell.blobBad => true

/-- A payload value moved into a frame cell. -/
def pvalToCell : PVal → Cell
  | PVal.s v => Cell.s v
  | PVal.i v => Cell.i v

/-- Truthiness of `payload.get(k)`. -/
def pvalTruthy : Option PVal → Bool
  | some (PVal.s v) => v ≠ ""
  | some (PVal.i v) => v ≠ 0
  | none => false

/-- Digit run to number, for `str.isdigit`-style parses. -/
def digitsToNat (cs : List Char) : Nat :=
  cs.foldl (fun n c => n * 10 + (c.toNat - 48)) 0

/-- `pd.to_numeric(x, errors="coerce").fillna(0).astype(int)` on one cell
(the repository's sizing cells are integers or integer-valued strings;
anything unparseable — including the empty string and `NaN` — coerces
to 0). -/
def toNumeric0 : Cell → Int
  | Cell.i v => v
  | Cell.s v =>
    match v.data with
    | [] => 0
    | '-' :: rest =>
      if !rest.isEmpty && rest.all Char.isDigit then -(Int.ofNat (digitsToNat rest))
      else 0
    | cs => if cs.all Char.isDigit then Int.ofNat (digitsToNat cs) else 0
  | _ => 0

/-- `col.astype(str).map(SYM2PRIO).fillna(0).astype(int)` on one cell: only
a string cell whose text is a key of `SYM2PRIO` hits the table —
`astype(str)` renders `NaN` as `"nan"` and numbers as digit strings, none of
which are keys — and every miss becomes 0 via `fillna(0)`. -/
def symPrioCell (c : Cell) : Int :=
  match c with
  | Cell.s v => (dictGet SYM2PRIO (some v)).getD 0
  | _ => 0

/-- `col.map(PRIO2SYM)` on an integer priority cell: `PRIO2SYM[0]` is
Python `None`, and a key miss is `NaN`; both are `na` holes that the
builder's final `.fillna("")` turns into the empty symbol. -/
def prioToSymCell (p : Int) : Cell :=
  match dictGet PRIO2SYM p with
  | some (some s) => Cell.s s
  | some none => Cell.na
  | none => Cell.na

/-- The symbol that an integer priority renders as in the final frame
(after `map(PRIO2SYM)` and the final `.fillna("")`). -/
def prioToSymFill (p : Int) : String :=
  match dictGet PRIO2SYM p with
  | some (some s) => s
  | _ => ""

/-- The integer of an aggregation cell (those cells are built as `Cell.i`). -/
def cellToInt0 : Cell → Int
  | Cell.i v => v
  | _ => 0

/-- Maximum of a list of integers (groups of a `groupby` are non-empty, so
the default of the empty case is never used by the builders). -/
def intListMax : List Int → Int
  | [] => 0
  | x :: xs => xs.foldl max x

/-- Python string `<` (lexicographic on code points). -/
def charListLt : List Char → List Char → Bool
  | [], [] => false
  | [], _ :: _ => true
  | _ :: _, [] => false
  | a :: as, b :: bs =>
    if a.toNat < b.toNat then true
    else if b.toNat < a.toNat then false
    else charListLt as bs

def strLtB (a b : String) : Bool := charListLt a.data b.data

/-- Insertion step of `sorted()` on strings. -/
def insStr (x : String) : List String → List String
  | [] => [x]
  | y :: ys => if strLtB x y then x :: y :: ys else y :: insStr x ys

/-- Python `sorted()` on a list of column labels. -/
def sortStrAsc : List String → List String
  | [] => []
  | x :: xs => insStr x (sortStrAsc xs)

/-- `df.rename(columns=m)`: relabel columns (and row keys) that appear in
the mapping. -/
def renMap (m : List (String × String)) (c : String) : String :=
  (dictGet m c).getD c

def dfRename (df : DF) (m : List (String × String)) : DF :=
  ⟨df.cols.map (renMap m),
   df.rows.map (fun r => r.map (fun p => (renMap m p.1, p.2)))⟩

/-- `df[cs]`: column selection/reordering.  (Python raises `KeyError` on a
missing label; every selection the builders perform is on labels they just
created, and the embedding reads a missing label as `NaN`.) -/
def dfSelect (df : DF) (cs : List String) : DF :=
  ⟨cs, df.rows.map (fun r => cs.map (fun c => (c, rowGet r c)))⟩

/-- `df.drop(columns=cs, errors="ignore")`. -/
def dfDrop (df : DF) (cs : List String) : DF :=
  ⟨df.cols.filter (fun c => decide (c ∉ cs)),
   df.rows.map (fun r => r.filter (fun p => decide (p.1 ∉ cs)))⟩

/-- `df.fillna("")`: every `NaN`/`None` hole becomes the empty string. -/
def fillCell (c : Cell) : Cell :=
  match c with
  | Cell.na => Cell.s ""
  | c => c

def dfFillna (df : DF) : DF :=
  ⟨df.cols, df.rows.map (fun r => r.map (fun p => (p.1, fillCell p.2)))⟩

/-- `df[c] = f(row)` for every row: set (or append) the column. -/
def dfSetColWith (df : DF) (c : String) (f : Row → Cell) : DF :=
  ⟨if c ∈ df.cols then df.cols else df.cols ++ [c],
   df.rows.map (fun r => rowSet r c (f r))⟩

/-- `df.apply(f, axis=1)`: map the rows and recompute the column set as the
union of the resulting row labels in order of appearance (pandas aligns the
returned Series). -/
def dfApplyRows (df : DF) (f : Row → Row) : DF :=
  let rows := df.rows.map f
  ⟨dedupByKeys id ((rows.map (fun r => r.map (·.1))).flatten), rows⟩

/-- The group keys of `df.groupby(c)`: the distinct values of the column,
with `NaN` keys dropped (as pandas does).  Kept in first-occurrence order —
pandas sorts them, which only permutes output rows. -/
def groupKeys (rows : List Row) (c : String) : List Cell :=
  (dedupByKeys id (rows.map (fun r => rowGet r c))).filter
    (fun v => decide (v ≠ Cell.na))

/-- Join-key agreement for `merge(on=on)`: `NaN` keys match nothing. -/
def matchesOn (onCols : List String) (ra rb : Row) : Bool :=
  onCols.all (fun k => decide (rowGet ra k ≠ Cell.na ∧ rowGet ra k = rowGet rb k))

/-- pandas suffix rule: a non-key column present on both sides is renamed
with the given suffix. -/
def renCol (other : List String) (onCols : List String) (suf : String)
    (c : String) : String :=
  if c ∈ other ∧ c ∉ onCols then c ++ suf else c

/-- `A.merge(B, on=on, how="left")`: each left row is paired with every
matching right row, or padded with `NaN` when none matches; collided
non-key labels get `_x`/`_y` suffixes. -/
def leftMerge (A B : DF) (onCols : List String) : DF :=
  let bKeep := B.cols.filter (fun c => decide (c ∉ onCols))
  ⟨A.cols.map (renCol B.cols onCols "_x") ++ bKeep.map (renCol A.cols onCols "_y"),
   (A.rows.map (fun ra =>
     let ral : Row := A.cols.map (fun c => (renCol B.cols onCols "_x" c, rowGet ra c))
     let ms := B.rows.filter (matchesOn onCols ra)
     if ms.isEmpty then
       [ral ++ bKeep.map (fun c => (renCol A.cols onCols "_y" c, Cell.na))]
     else
       ms.map (fun rb =>
         ral ++ bKeep.map (fun c => (renCol A.cols onCols "_y" c, rowGet rb c))))).flatten⟩

/-! ## Virtual Device Rollup (`build_virtual_devices_df`,
virtual_devices_tab.py lines 70–161) -/

/-- Line 87: raw VM inventory fields renamed to the canonical vocabulary. -/
def vdevRenameMap : List (String × String) :=
  [("device_name", "virtual_device"), ("physical_host", "physical_device"),
   ("total_number_of_processors", "number_of_virtual_processors"),
   ("total_number_of_cores", "number_of_virtual_cores"),
   ("total_number_of_threads", "number_of_virtual_threads")]

/-- Line 102: the core Database Details columns excluded from the option
roll-up. -/
def core_db_cols : List String :=
  ["device_name", "dbid", "database_name", "product_edition",
   "product_version", "full_version", "instance_status",
   "goldengate_enabled", "source", "rac_hosts", "rac_instances",
   "rac_members_count", "virtual_device"]

/-- The key function of the aggregation lambda (line 114):
`VM_OPTION_PRIORITY.get(sym, 0)`.  `VM_OPTION_PRIORITY` is keyed by result
**categories** (`"used"`, …), and the cells fed to it are display
**symbols** (`"+"`, …), so every non-empty symbol misses the dict and
scores the default 0 (the empty symbol hits the `""` key, also 0); a
non-string cell (e.g. `NaN`) is not a key either. -/
def vmSymScore (c : Cell) : Int :=
  match c with
  | Cell.s v => (dictGet VM_OPTION_PRIORITY (some v)).getD 0
  | _ => 0

/-- The aggregation lambda of lines 113–116:
`max(syms, key=…) if len(syms.dropna()) > 0 else ""`.  Python's `max`
returns the **first** maximal element, so with all scores equal it returns
the group's first cell. -/
def vmAggCell (cells : List Cell) : Cell :=
  if (cells.filter (fun c => decide (c ≠ Cell.na))).isEmpty then Cell.s ""
  else (pyMaxBy vmSymScore cells).getD (Cell.s "")

/-- Line 100: `df_db_details["virtual_device"] = df_db_details["device_name"]`
— an **in-place** write into the caller's frame. -/
def setVirtualDeviceCol (db : DF) : DF :=
  dfSetColWith db "virtual_device" (fun r => rowGet r "device_name")

/-- Lines 108–116: the per-VM aggregated option frame
`df_db_details.groupby("virtual_device")[option_cols_db].agg(…)`. -/
def vdevOptsGrp (db : DF) : DF :=
  let optionColsDb := db.cols.filter (fun c => decide (c ∉ core_db_cols))
  let keys := groupKeys db.rows "virtual_device"
  ⟨"virtual_device" :: optionColsDb,
   keys.map (fun d =>
     ("virtual_device", d) ::
       optionColsDb.map (fun c =>
         (c, vmAggCell ((db.rows.filter
           (fun r => decide (rowGet r "virtual_device" = d))).map
             (fun r => rowGet r c)))))⟩

/-- Lines 27–39: the fields `_extract_vm_fields` surfaces from `raw_data`. -/
def vmWantedFields : List String :=
  ["operating_system_release", "cpu_speed", "cpu_threads", "siblings",
   "hyper_threading", "device_model", "device_manufacturer",
   "lscpu_total_threads", "lscpu_cores_per_socket", "lscpu_threads_per_core",
   "lscpu_hypervisor"]

/-- Lines 61–64: back-fill each wanted field from the parsed payload, but
only where the current value is falsy (`if not r.get(k)` — note a `NaN`
value is truthy and therefore **not** back-filled). -/
def extractVmFill (r : Row) (j : List (String × PVal)) : Row :=
  vmWantedFields.foldl (fun acc k =>
    if cellTruthy (rowGet acc k) then acc
    else rowSet acc k (((dictGet j k).map pvalToCell).getD (Cell.s ""))) r

/-- `_extract_vm_fields` (lines 21–66).  The `wanted` pre-pass adds every
missing wanted field as `""`; then `raw_data` is parsed: the blank string is
falsy and returns early; `NaN` is truthy and both parses fail (`j = {}`),
like an unparseable string; a parsed dict back-fills the falsy fields. -/
def extractVmFields (r : Row) : Row :=
  let r := vmWantedFields.foldl (fun acc k =>
    if (acc.find? (fun p => p.1 == k)).isSome then acc
    else acc ++ [(k, Cell.s "")]) r
  match rowGetD r "raw_data" (Cell.s "") with
  | Cell.s _ => r
  | Cell.i v => if v = 0 then r else extractVmFill r []
  | Cell.na => extractVmFill r []
  | Cell.blobBad => extractVmFill r []
  | Cell.blob j => extractVmFill r j

/-- Lines 132–135: redundant columns dropped from the VM frame. -/
def vdevDropCols : List String :=
  ["cpu_threads", "device_type", "manufacturer", "model",
   "number_of_virtual_cores", "number_of_virtual_threads", "raw_data",
   "siblings"]

/-- Lines 138–156: identity/hardware columns placed first. -/
def vdevIdBlock : List String :=
  ["physical_device", "virtual_device", "virtualization_type", "capped",
   "device_model", "device_manufacturer", "lscpu_hypervisor",
   "hyper_threading", "operating_system_type", "operating_system_release",
   "cpu_model", "cpu_speed", "lscpu_cores_per_socket",
   "lscpu_threads_per_core", "lscpu_total_threads",
   "number_of_virtual_processors", "oracle_core_factor"]

/-- Lines 131–161: drop, reorder (id block then the rest alphabetically),
`fillna("")`. -/
def vdevTidy (df : DF) : DF :=
  let df := dfDrop df vdevDropCols
  let idb := vdevIdBlock.filter (fun c => decide (c ∈ df.cols))
  let optb := sortStrAsc (df.cols.filter (fun c => decide (c ∉ idb)))
  dfFillna (dfSelect df (idb ++ optb))

/-- `build_virtual_devices_df` (lines 70–161).  The second component of the
result is the caller-visible value of the `df_db_details` argument after
the call: line 100 writes the `virtual_device` column into it in place
before the roll-up, and nothing else mutates it. -/
def buildVirtualDevicesDf (vmJson : DF) (allowed : Option (List String))
    (dbDetails : Option DF) : DF × Option DF :=
  let df0 := match allowed with
    | none => vmJson
    | some al => ⟨vmJson.cols, vmJson.rows.filter (fun r =>
        al.any (fun v => rowGet r "device_name" == Cell.s v))⟩
  let df1 := dfRename df0 vdevRenameMap
  match dbDetails with
  | none => (vdevTidy (dfApplyRows df1 extractVmFields), none)
  | some db =>
    let db' := setVirtualDeviceCol db
    let df2 := leftMerge df1 (vdevOptsGrp db') ["virtual_device"]
    (vdevTidy (dfApplyRows df2 extractVmFields), some db')

/-! ## Host Rollup (`build_hosts_df`, hosts_tab.py lines 15–295)

The three-tier sourcing is driven by the environment: the primary JSON may
be unreadable, and `input/host_declaration_template.csv` may exist.  The
runs modelled here have no declaration file (the CSV tier is not exercised
by any claim; note that in that tier line 54 rebinds `df_virtual_devices`
to a merged copy, so the later sizing coercion would not touch the caller's
frame either), so the host specs input is `some` rows parsed from the JSON
or `none` for the empty-skeleton tier. -/

/-- `str(r.get("virtualization_type")).lower() == "vmware"` (line 101), and
the column mask `.str.lower() == "vmware"` (line 134): true exactly for a
string cell case-folding to `"vmware"` — `str()` of `NaN`/`None`/numbers/
dicts is `"nan"`/`"none"`/digits/`"{…}"`, never `"vmware"`, and the mask is
`False` on non-strings. -/
def isVmwareCell (c : Cell) : Bool :=
  match c with
  | Cell.s v => pyLower v == "vmware"
  | _ => false

/-- `to_int = lambda v, d=0: int(v) if str(v).isdigit() else d` (line 112)
applied to `j.get(k)`: a non-negative integer (or digit string) parses;
negative numbers render with `"-"` and `None` as `"None"`, neither of which
`isdigit`. -/
def toIntPy (v : Option PVal) (d : Int) : Int :=
  match v with
  | some (PVal.i n) => if 0 ≤ n then n else d
  | some (PVal.s s) =>
    if !s.data.isEmpty && s.data.all Char.isDigit then Int.ofNat (digitsToNat s.data)
    else d
  | none => d

/-- `_fix_vmware_row` (lines 94–128).  Non-VMware rows, and rows whose
`raw_data` is not a parseable non-blank string, are returned unchanged.
`r.get(col, 0)` supplies 0 for a missing sizing column; comparing a `NaN`
sizing cell with 1 is `False` in Python (a string there would raise —
sizing cells of the host inventory are numeric or `NaN`). -/
def cellLeOne (c : Cell) : Bool :=
  match c with
  | Cell.i v => decide (v ≤ 1)
  | _ => false

def fixVmwareRow (r : Row) : Row :=
  if !isVmwareCell (rowGet r "virtualization_type") then r
  else
    match rowGet r "raw_data" with
    | Cell.blob j =>
      let r := if cellLeOne (rowGetD r "total_number_of_processors" (Cell.i 0))
        then rowSet r "total_number_of_processors"
          (Cell.i (toIntPy (dictGet j "# CPU") 1)) else r
      let r := if cellLeOne (rowGetD r "total_number_of_cores" (Cell.i 0))
        then rowSet r "total_number_of_cores"
          (Cell.i (toIntPy (dictGet j "# Cores") 1)) else r
      let r := if cellLeOne (rowGetD r "total_number_of_threads" (Cell.i 0))
        then rowSet r "total_number_of_threads"
          (Cell.i (toIntPy (dictGet j "# Cores") 1 * 2)) else r
      let r := if (dictGet j "Cores per CPU").isSome then
          rowSet r "cores_per_cpu" (Cell.i (toIntPy (dictGet j "Cores per CPU") 0))
        else r
      let r := if (dictGet j "ESX Version").isSome then
          rowSet r "esx_version"
            (((dictGet j "ESX Version").map pvalToCell).getD Cell.na)
        else r
      let r := if rowGet r "manufacturer" = Cell.na ∧
          pvalTruthy (dictGet j "Vendor") then
          rowSet r "manufacturer" (((dictGet j "Vendor").map pvalToCell).getD Cell.na)
        else r
      r
    | _ => r

/-- `_override_vmware_sizing` (lines 136–150): parse `raw_data` with a
fall-through to `{}` on any failure (blank, `NaN`, unparseable, dict-typed),
then re-assign processors/cores-per-CPU/cores from the payload
unconditionally, keeping the current value when a key is absent (the
cores-per-CPU default is the — already overridden — processor count when
the column is missing). -/
def overrideVmwareSizing (r : Row) : Row :=
  let payload := match rowGet r "raw_data" with
    | Cell.blob j => j
    | _ => []
  let r := rowSet r "total_number_of_processors"
    (((dictGet payload "# CPU").map pvalToCell).getD
      (rowGet r "total_number_of_processors"))
  let r := rowSet r "cores_per_cpu"
    (((dictGet payload "Cores per CPU").map pvalToCell).getD
      (rowGetD r "cores_per_cpu" (rowGet r "total_number_of_processors")))
  let r := rowSet r "total_number_of_cores"
    (((dictGet payload "# Cores").map pvalToCell).getD
      (rowGet r "total_number_of_cores"))
  r

/-- The combined per-row VMware correction as the builder applies it:
`_fix_vmware_row` on every row (line 131), then `_override_vmware_sizing`
on the rows of the VMware mask (lines 134–153; skipping the whole block
when the mask is empty equals applying it to no row).  `_fix_vmware_row`
never changes `virtualization_type`, so the mask agrees before and after. -/
def hostRowFix (r : Row) : Row :=
  let r2 := fixVmwareRow r
  if isVmwareCell (rowGet r2 "virtualization_type") then overrideVmwareSizing r2
  else r2

/-- Lines 155–170. -/
def idColsSpecs : List String :=
  ["device_name", "virtualization_type", "cluster_name",
   "operating_system_type", "esx_version", "total_number_of_processors",
   "cores_per_cpu", "total_number_of_cores", "total_number_of_threads",
   "cpu_model", "oracle_core_factor", "manufacturer", "model",
   "number_of_vms"]

/-- Lines 131–172: fix rows, apply the VMware override to masked rows,
select the id columns, `drop_duplicates("device_name")`, rename
`device_name` to `physical_device`. -/
def prepHostSpecs (sp : DF) : DF :=
  let sp1 := dfApplyRows sp fixVmwareRow
  let sp2 : DF := ⟨sp1.cols, sp1.rows.map (fun r =>
    if isVmwareCell (rowGet r "virtualization_type") then overrideVmwareSizing r
    else r)⟩
  let sp3 := dfSelect sp2 idColsSpecs
  let sp4 : DF := ⟨sp3.cols, dedupByKeys (fun r => rowGet r "device_name") sp3.rows⟩
  dfRename sp4 [("device_name", "physical_device")]

/-- Lines 175–177. -/
def possibleSizing : List String :=
  ["number_of_virtual_threads", "cpu_threads", "lscpu_total_threads"]

def sizingColsVm (vtCols : List String) : List String :=
  possibleSizing.filter (fun c => decide (c ∈ vtCols))

/-- Lines 181–184: the in-place numeric coercion of the present sizing
columns of the **caller's** `df_virtual_devices`. -/
def coerceSizing (vt : DF) : DF :=
  ⟨vt.cols, vt.rows.map (fun r =>
    (sizingColsVm vt.cols).foldl (fun acc c =>
      rowSet acc c (Cell.i (toNumeric0 (rowGet acc c)))) r)⟩

/-- Lines 186–192. -/
def hostsExcludedBase : List String :=
  ["virtual_device", "physical_device", "virtualization_type",
   "operating_system_type", "domain", "pool", "cpu_model",
   "number_of_virtual_processors", "number_of_virtual_cores",
   "number_of_virtual_threads"]

def hostOptionCols (vtCols : List String) : List String :=
  vtCols.filter (fun c =>
    decide (c ∉ hostsExcludedBase ++ sizingColsVm vtCols))

/-- Lines 195–204: `df_prior`, the VM frame with every option column
converted to integer priorities.  (The `try`/`except` and the
`col in df_prior.columns` guard never fire: the option columns were just
taken from the frame's own column list and the mapping cannot raise.) -/
def dfPrior (vt : DF) : DF :=
  ⟨vt.cols, vt.rows.map (fun r =>
    (hostOptionCols vt.cols).foldl (fun acc c =>
      rowSet acc c (Cell.i (symPrioCell (rowGet acc c)))) r)⟩

/-- Lines 206–209: `grouped[option_cols].max()` — one row per physical
device, each option cell the maximum priority over the device's VMs. -/
def dfOptsMax (vt : DF) : DF :=
  let oc := hostOptionCols vt.cols
  let pr := dfPrior vt
  ⟨"physical_device" :: oc,
   (groupKeys vt.rows "physical_device").map (fun d =>
     ("physical_device", d) ::
       oc.map (fun c =>
         (c, Cell.i (intListMax ((pr.rows.filter
           (fun r => decide (rowGet r "physical_device" = d))).map
             (fun r => cellToInt0 (rowGet r c)))))))⟩

/-- Lines 211–216: `grouped[sizing_cols_vm].sum()`, or the
`sizing_note` placeholder frame when no sizing column exists (that branch
uses `drop_duplicates`, which — unlike `groupby` — keeps a `NaN` device). -/
def dfSizingSum (vt : DF) : DF :=
  let sc := sizingColsVm vt.cols
  if sc.isEmpty then
    ⟨["physical_device", "sizing_note"],
     (dedupByKeys (fun r => rowGet r "physical_device")
       (vt.rows.map (fun r => [("physical_device", rowGet r "physical_device")]))).map
         (fun r => r ++ [("sizing_note", Cell.s "NO VIRTUAL SIZING DATA FOUND")])⟩
  else
    ⟨"physical_device" :: sc,
     (groupKeys vt.rows "physical_device").map (fun d =>
       ("physical_device", d) ::
         sc.map (fun c =>
           (c, Cell.i ((vt.rows.filter
             (fun r => decide (rowGet r "physical_device" = d))).foldl
               (fun acc r => acc + cellToInt0 (rowGet r c)) 0))))⟩

/-- Lines 225–230: the provenance tag.  `cluster_name` is always among the
selected spec columns, so the `else` branch is unreachable but embedded. -/
def hostsDataSource (df specs : DF) : DF :=
  if "cluster_name" ∈ specs.cols then
    dfSetColWith df "data_source" (fun r =>
      let cl := match specs.rows.find? (fun s =>
          decide (rowGet s "physical_device" = rowGet r "physical_device")) with
        | some s => rowGet s "cluster_name"
        | none => Cell.na
      let cl := if cl = Cell.na then Cell.s "discovered" else cl
      if cl = Cell.s "DECLARED" then Cell.s "declared" else Cell.s "discovered")
  else dfSetColWith df "data_source" (fun _ => Cell.s "discovered")

/-- Lines 233–242: convert the option columns (present and of numeric
dtype — which they are, having been built as integer maxima) back to
symbols via `PRIO2SYM`. -/
def colIsNumeric (df : DF) (c : String) : Bool :=
  df.rows.all (fun r =>
    match rowGet r c with
    | Cell.i _ => true
    | Cell.na => true
    | _ => false)

def backConvert (df : DF) (oc : List String) : DF :=
  oc.foldl (fun acc c =>
    if c ∈ acc.cols ∧ colIsNumeric acc c then
      ⟨acc.cols, acc.rows.map (fun r =>
        rowSet r c (prioToSymCell (cellToInt0 (rowGet r c))))⟩
    else acc) df

/-- Lines 244–250. -/
def ensurePhysicalCols (df : DF) : DF :=
  ["total_number_of_processors", "total_number_of_cores",
   "total_number_of_threads"].foldl (fun acc c =>
    if c ∈ acc.cols then acc else dfSetColWith acc c (fun _ => Cell.s "")) df

/-- Lines 253–260. -/
def hostsDropList : List String :=
  ["total_number_of_threads", "capped", "cpu_speed", "device_manufacturer",
   "device_model", "hyper_threading", "lscpu_cores_per_socket",
   "lscpu_hypervisor", "lscpu_threads_per_core",
   "number_of_virtual_processors", "operating_system_release",
   "virtualization_type", "lscpu_total_threads", "oracle_core_factor_x",
   "oracle_core_factor_y"]

/-- Lines 263–264 (dead after the preceding drop, but embedded): merge the
split `oracle_core_factor` columns, preferring the host-spec one. -/
def oracleCoreFactorFix (df : DF) : DF :=
  if "oracle_core_factor_x" ∈ df.cols ∧ "oracle_core_factor_y" ∈ df.cols then
    dfSetColWith df "oracle_core_factor" (fun r =>
      if rowGet r "oracle_core_factor_y" = Cell.na then
        rowGet r "oracle_core_factor_x"
      else rowGet r "oracle_core_factor_y")
  else df

/-- Lines 267–268: `df.get("model_y", "")` is the `model_y` column when
present, else the scalar `""`. -/
def modelFallback (df : DF) : DF :=
  if "model" ∉ df.cols ∨ df.rows.all (fun r => rowGet r "model" = Cell.na) then
    if "model_y" ∈ df.cols then
      dfSetColWith df "model" (fun r => rowGet r "model_y")
    else dfSetColWith df "model" (fun _ => Cell.s "")
  else df

/-- Lines 271–286. -/
def hostsDesiredIds : List String :=
  ["cluster_name", "physical_device", "number_of_vms",
   "operating_system_type", "esx_version", "model_x", "model_y",
   "manufacturer", "model", "cpu_model", "total_number_of_processors",
   "cores_per_cpu", "total_number_of_cores", "oracle_core_factor"]

/-- Lines 287–293: id block, alphabetical rest, `fillna("")`. -/
def hostsTidy (df : DF) : DF :=
  let idb := hostsDesiredIds.filter (fun c => decide (c ∈ df.cols))
  let optb := sortStrAsc (df.cols.filter (fun c => decide (c ∉ idb)))
  dfFillna (dfSelect df (idb ++ optb))

/-- Lines 78–91: the empty host sheet of the last-resort tier. -/
def emptyHostsDesiredIds : List String :=
  ["cluster_name", "physical_device", "number_of_vms",
   "operating_system_type", "esx_version", "manufacturer", "model",
   "cpu_model", "total_number_of_processors", "cores_per_cpu",
   "total_number_of_cores", "oracle_core_factor"]

def emptyHostsDf (vt : DF) : DF :=
  ⟨emptyHostsDesiredIds ++ sortStrAsc (vt.cols.filter (fun c =>
    decide (c ≠ "virtual_device" ∧ c ≠ "physical_device"))), []⟩

/-- The primary-tier body of `build_hosts_df` (lines 93–295), given the
parsed host specs.  The second component is the caller-visible value of the
`df_virtual_devices` argument after the call: lines 181–184 coerce its
sizing columns in place before `df_prior` is copied from it. -/
def buildHostsFromSpecs (sp : DF) (vt0 : DF) : DF × DF :=
  let specs := prepHostSpecs sp
  let vt := coerceSizing vt0
  let dfh1 := leftMerge (dfOptsMax vt) (dfSizingSum vt) ["physical_device"]
  let dfh2 := leftMerge dfh1 specs ["physical_device"]
  let dfh3 := hostsDataSource dfh2 specs
  let dfh4 := backConvert dfh3 (hostOptionCols vt.cols)
  let dfh5 := ensurePhysicalCols dfh4
  let dfh6 := dfDrop dfh5 hostsDropList
  let dfh7 := oracleCoreFactorFix dfh6
  let dfh8 := modelFallback dfh7
  (hostsTidy dfh8, vt)

/-- `build_hosts_df` (lines 15–295) with no declaration CSV in the
environment: a readable `Physical Hosts.json` takes the primary path; an
unreadable one returns the empty header-only sheet (lines 78–91) — before
the sizing coercion, so the caller's `df_virtual_devices` is untouched. -/
def buildHostsDf (sp : Option DF) (vt : DF) : DF × DF :=
  match sp with
  | some s => buildHostsFromSpecs s vt
  | none => (emptyHostsDf vt, vt)

/-! ## Cluster Rollup (`build_clusters_df`, clusters_tab.py lines 13–153) -/

/-- Lines 28–40 / 138–150. -/
def clusterIdBlock : List String :=
  ["visdk_server", "cluster_name", "instance_uuid", "number_of_hosts",
   "admission_control_enabled", "num_vmotions", "ha_enabled", "drs_enabled",
   "overall_status", "total_number_of_processors", "total_number_of_cores"]

/-- Lines 51–64. -/
def RAW_KEY_MAP : List (String × String) :=
  [("Config status", "config_status"), ("OverallStatus", "overall_status"),
   ("NumHosts", "number_of_hosts"), ("NumCpuCores", "total_number_of_cores"),
   ("NumCpuThreads", "total_number_of_threads"),
   ("Num Vmotions", "num_vmotions"), ("HA Enabled", "ha_enabled"),
   ("DRS enabled", "drs_enabled"),
   ("AdmissionControlEnabled", "admission_control_enabled"),
   ("FailoverLevel", "failover_level"), ("VI SDK Server", "visdk_server"),
   ("InstanceUUID", "instance_uuid")]

/-- `_extract_cluster_fields` (lines 67–82): back-fill each mapped column
from the parsed payload when the column is missing or falsy. -/
def extractClusterFields (r : Row) : Row :=
  let payload := match rowGet r "raw_data" with
    | Cell.blob j => j
    | _ => []
  RAW_KEY_MAP.foldl (fun acc p =>
    if (acc.find? (fun q => q.1 == p.2)).isSome ∧ cellTruthy (rowGet acc p.2)
    then acc
    else rowSet acc p.2 (((dictGet payload p.1).map pvalToCell).getD (Cell.s ""))) r

/-- Lines 86–101. -/
def clusterKeep : List String :=
  ["cluster_name", "number_of_hosts", "total_number_of_processors",
   "total_number_of_cores", "total_number_of_threads", "overall_status",
   "config_status", "ha_enabled", "drs_enabled", "num_vmotions",
   "failover_level", "admission_control_enabled", "visdk_server",
   "instance_uuid"]

/-- Lines 108–113. -/
def clusterNonOpts : List String :=
  ["cluster_name", "physical_device", "number_of_vms",
   "operating_system_type", "esx_version", "manufacturer", "model",
   "cpu_model", "total_number_of_processors", "cores_per_cpu",
   "total_number_of_cores"]

/-- The key of `_cluster_opts` (line 121): this `SYM2PRIO` is the inverse of
`PRIO2SYM`, keyed by actual symbols (but with `None`, not `""`, at 0). -/
def clusterSymScore (c : Cell) : Int :=
  match c with
  | Cell.s v => (dictGet CLUSTER_SYM2PRIO (some v)).getD 0
  | _ => 0

/-- `_cluster_opts` for one column (lines 116–124): drop `NaN`s, then take
the first maximal symbol, or `""` for an empty list. -/
def clusterOptCell (cells : List Cell) : Cell :=
  let syms := cells.filter (fun c => decide (c ≠ Cell.na))
  if syms.isEmpty then Cell.s ""
  else (pyMaxBy clusterSymScore syms).getD (Cell.s "")

/-- `build_clusters_df` (lines 13–153): `none` is an absent or unparseable
"Virtualization Clusters.json" (lines 24–43, the header-only sheet).  The
parsed branch is the §4.6 pipeline; its `groupby(...).apply(...)`/merge
interplay is embedded with the per-cluster frame keyed by `cluster_name`. -/
def buildClustersDf (dfHosts : DF) (specs : Option DF) : DF :=
  match specs with
  | none =>
    ⟨clusterIdBlock ++ sortStrAsc (dfHosts.cols.filter (fun c =>
      decide (c ∉ clusterIdBlock))), []⟩
  | some sp =>
    let sp1 := dfRename sp [("device_name", "cluster_name"),
      ("number_of_cluster_members", "number_of_hosts")]
    let sp2 := dfApplyRows sp1 extractClusterFields
    let sp3 := dfSelect sp2 (clusterKeep.filter (fun c => decide (c ∈ sp2.cols)))
    let specsGrp : DF := ⟨sp3.cols,
      dedupByKeys (fun r => rowGet r "cluster_name") sp3.rows⟩
    let optCols := dfHosts.cols.filter (fun c => decide (c ∉ clusterNonOpts))
    let optsGrp : DF := ⟨"cluster_name" :: optCols,
      (groupKeys dfHosts.rows "cluster_name").map (fun d =>
        ("cluster_name", d) ::
          optCols.map (fun c =>
            (c, clusterOptCell ((dfHosts.rows.filter
              (fun r => decide (rowGet r "cluster_name" = d))).map
                (fun r => rowGet r c)))))⟩
    let m := dfDrop (leftMerge specsGrp optsGrp ["cluster_name"])
      ["config_status", "failover_level", "total_number_of_threads"]
    let idb := clusterIdBlock.filter (fun c => decide (c ∈ m.cols))
    let optb := sortStrAsc (m.cols.filter (fun c => decide (c ∉ idb)))
    dfFillna (dfSelect m (idb ++ optb))

/-! ## Concrete example frames (spec Example 3 / Example 5 inputs) -/

/-- A one-host physical inventory frame (all spec columns present). -/
def hostExampleSpecs : DF :=
  ⟨["device_name", "virtualization_type", "cluster_name",
    "operating_system_type", "esx_version", "total_number_of_processors",
    "cores_per_cpu", "total_number_of_cores", "total_number_of_threads",
    "cpu_model", "oracle_core_factor", "manufacturer", "model",
    "number_of_vms"],
   [[("device_name", Cell.s "host1"), ("virtualization_type", Cell.s "Linux"),
     ("cluster_name", Cell.s "cl1"), ("operating_system_type", Cell.s "Linux"),
     ("esx_version", Cell.s "N/A"), ("total_number_of_processors", Cell.i 2),
     ("cores_per_cpu", Cell.i 8), ("total_number_of_cores", Cell.i 16),
     ("total_number_of_threads", Cell.i 32), ("cpu_model", Cell.s "Xeon"),
     ("oracle_core_factor", Cell.s "0.5"), ("manufacturer", Cell.s "Dell"),
     ("model", Cell.s "R740"), ("number_of_vms", Cell.i 2)]]⟩

/-- Two VMs on `host1`: Partitioning `"+"`/`"~"`, thread counts 2/4, core
counts 1/1. -/
def hostExampleVms : DF :=
  ⟨["virtual_device", "physical_device", "cpu_threads",
    "number_of_virtual_cores", "partitioning"],
   [[("virtual_device", Cell.s "vm1"), ("physical_device", Cell.s "host1"),
     ("cpu_threads", Cell.i 2), ("number_of_virtual_cores", Cell.i 1),
     ("partitioning", Cell.s "+")],
    [("virtual_device", Cell.s "vm2"), ("physical_device", Cell.s "host1"),
     ("cpu_threads", Cell.i 4), ("number_of_virtual_cores", Cell.i 1),
     ("partitioning", Cell.s "~")]]⟩

/-! ================================================================
    ## Theorems
    ================================================================ -/

theorem prio2sym_value : PRIO2SYM = [(4, some "+"), (3, some "~"),
    (2, some "#"), (1, some "^"), (0, none)] := by decide

theorem cluster_sym2prio_value : CLUSTER_SYM2PRIO = [(some "+", 4),
    (some "~", 3), (some "#", 2), (some "^", 1), (none, 0)] := by decide

/-- **C2, counterexample.**  The hosts tables do not re-encode the empty
symbol to itself: `SYM2PRIO[""] = 0` but `PRIO2SYM[0]` is Python `None`
(modelled `none`), not `""`, because the dict comprehension that builds
`PRIO2SYM` lets the later `None ↦ 0` entry of `SYM2PRIO` overwrite the
`"" ↦ 0` entry.  So decoding the known symbol `""` and re-encoding does not
yield `""` back. -/
theorem sym2prio_empty_roundtrip_fails :
    dictGet SYM2PRIO (some "") = some 0 ∧
    dictGet PRIO2SYM 0 = some none ∧
    dictGet PRIO2SYM 0 ≠ some (some "") := by
  refine ⟨by decide, by decide, by decide⟩

/-- **C2, amended.**  The codec round-trip that actually holds: every
priority `p ∈ {0,…,4}` encodes to a unique symbol that decodes back to `p`
(priority `0` encodes to Python `None`, which `SYM2PRIO` also maps to `0`);
each of the four non-empty symbols decodes and re-encodes to itself; and the
`db_details` tables agree with the hosts `SYM2PRIO` table on every result
category: the symbol `OPTION_SYMBOL[c]` has priority `OPTION_PRIORITY[c]`.
Only the `"" ↦ 0 ↦ None` leg of the round-trip differs from the claim. -/
theorem codec_roundtrip_amended :
    (∀ p : Int, p ∈ ([0, 1, 2, 3, 4] : List Int) →
      ∃ s, dictGet PRIO2SYM p = some s ∧ dictGet SYM2PRIO s = some p) ∧
    (∀ s : String, s ∈ (["+", "~", "#", "^"] : List String) →
      ∃ p, dictGet SYM2PRIO (some s) = some p ∧
        dictGet PRIO2SYM p = some (some s)) ∧
    (∀ c : Option String, c ∈ OPTION_PRIORITY.map (·.1) →
      ∃ sym, dictGet OPTION_SYMBOL c = some sym ∧
        dictGet SYM2PRIO (some sym) = dictGet OPTION_PRIORITY c) := by
  refine ⟨?_, ?_, ?_⟩ <;> decide

/-- Witness for `codec_roundtrip_amended`: instantiate each bounded
quantifier at a concrete member. -/
theorem codec_roundtrip_amended_witness :
    (∃ s, dictGet PRIO2SYM 4 = some s ∧ dictGet SYM2PRIO s = some 4) ∧
    (∃ p, dictGet SYM2PRIO (some "+") = some p ∧
      dictGet PRIO2SYM p = some (some "+")) ∧
    (∃ sym, dictGet OPTION_SYMBOL (some "used") = some sym ∧
      dictGet SYM2PRIO (some sym) = dictGet OPTION_PRIORITY (some "used")) :=
  ⟨codec_roundtrip_amended.1 4 (by decide),
   codec_roundtrip_amended.2.1 "+" (by decide),
   codec_roundtrip_amended.2.2 (some "used") (by decide)⟩

/-! ### Lemmas about the sort/dedup machinery -/

theorem mem_insDesc {α : Type} (f : α → Int) (x : α) (l : List α) (a : α) :
    a ∈ insDesc f x l ↔ a = x ∨ a ∈ l := by
  induction l with
  | nil => simp [insDesc]
  | cons y ys ih =>
    simp only [insDesc]
    split
    · simp [List.mem_cons]
    · simp only [List.mem_cons, ih]
      tauto

theorem insDesc_perm {α : Type} (f : α → Int) (x : α) (l : List α) :
    List.Perm (insDesc f x l) (x :: l) := by
  induction l with
  | nil => exact List.Perm.refl _
  | cons y ys ih =>
    simp only [insDesc]
    split
    · exact List.Perm.refl _
    · exact (ih.cons y).trans (List.Perm.swap x y ys)

theorem sortDesc_perm {α : Type} (f : α → Int) (l : List α) :
    List.Perm (sortDesc f l) l := by
  induction l with
  | nil => exact List.Perm.refl _
  | cons x xs ih => exact (insDesc_perm f x _).trans (ih.cons x)

theorem insDesc_pairwise {α : Type} (f : α → Int) (x : α) (l : List α)
    (h : l.Pairwise (fun a b => f b ≤ f a)) :
    (insDesc f x l).Pairwise (fun a b => f b ≤ f a) := by
  induction l with
  | nil => simp [insDesc]
  | cons y ys ih =>
    rcases List.pairwise_cons.mp h with ⟨hy, hys⟩
    simp only [insDesc]
    split
    · rename_i hlt
      refine List.pairwise_cons.mpr ⟨?_, h⟩
      intro z hz
      rcases List.mem_cons.mp hz with rfl | hz
      · exact le_of_lt hlt
      · exact le_trans (hy z hz) (le_of_lt hlt)
    · rename_i hnlt
      refine List.pairwise_cons.mpr ⟨?_, ih hys⟩
      intro z hz
      rcases (mem_insDesc f x ys z).mp hz with rfl | hz
      · exact le_of_not_lt hnlt
      · exact hy z hz

theorem sortDesc_pairwise {α : Type} (f : α → Int) (l : List α) :
    (sortDesc f l).Pairwise (fun a b => f b ≤ f a) := by
  induction l with
  | nil => simp [sortDesc]
  | cons x xs ih => exact insDesc_pairwise f x _ ih

theorem mem_of_mem_dedupByKeysAux {α κ : Type} [DecidableEq κ] (key : α → κ) :
    ∀ (l : List α) (seen : List κ) (a : α),
      a ∈ dedupByKeysAux key seen l → a ∈ l := by
  intro l
  induction l with
  | nil => intro seen a h; simp [dedupByKeysAux] at h
  | cons x xs ih =>
    intro seen a h
    simp only [dedupByKeysAux] at h
    by_cases hx : key x ∈ seen
    · rw [if_pos hx] at h
      exact List.mem_cons_of_mem x (ih seen a h)
    · rw [if_neg hx] at h
      rcases List.mem_cons.mp h with rfl | h
      · exact List.mem_cons_self _ _
      · exact List.mem_cons_of_mem x (ih _ a h)

theorem mem_of_mem_dedupByKeys {α κ : Type} [DecidableEq κ] (key : α → κ)
    (l : List α) (a : α) (h : a ∈ dedupByKeys key l) : a ∈ l :=
  mem_of_mem_dedupByKeysAux key l [] a h

theorem key_not_seen_of_mem_dedupByKeysAux {α κ : Type} [DecidableEq κ]
    (key : α → κ) :
    ∀ (l : List α) (seen : List κ) (a : α),
      a ∈ dedupByKeysAux key seen l → key a ∉ seen := by
  intro l
  induction l with
  | nil => intro seen a h; simp [dedupByKeysAux] at h
  | cons x xs ih =>
    intro seen a h
    simp only [dedupByKeysAux] at h
    by_cases hx : key x ∈ seen
    · rw [if_pos hx] at h
      exact ih seen a h
    · rw [if_neg hx] at h
      rcases List.mem_cons.mp h with rfl | h
      · exact hx
      · intro hseen
        exact ih _ a h (List.mem_cons_of_mem _ hseen)

theorem find?_dedupByKeysAux {α κ : Type} [DecidableEq κ] (key : α → κ) (k : κ) :
    ∀ (l : List α) (seen : List κ), k ∉ seen →
      (dedupByKeysAux key seen l).find? (fun a => decide (key a = k)) =
        l.find? (fun a => decide (key a = k)) := by
  intro l
  induction l with
  | nil => intro seen _; simp [dedupByKeysAux]
  | cons x xs ih =>
    intro seen hk
    simp only [dedupByKeysAux]
    by_cases hx : key x ∈ seen
    · rw [if_pos hx]
      have hne : decide (key x = k) = false := by
        simp only [decide_eq_false_iff_not]
        exact fun he => hk (he ▸ hx)
      rw [List.find?_cons, hne]
      exact ih seen hk
    · rw [if_neg hx]
      by_cases hxk : key x = k
      · simp [List.find?_cons, hxk]
      · have hk' : k ∉ key x :: seen := by
          intro hmem
          rcases List.mem_cons.mp hmem with rfl | hmem
          · exact hxk rfl
          · exact hk hmem
        have hne : decide (key x = k) = false := by simp [hxk]
        rw [List.find?_cons, List.find?_cons, hne]
        exact ih _ hk'

theorem find?_dedupByKeys {α κ : Type} [DecidableEq κ] (key : α → κ) (k : κ)
    (l : List α) :
    (dedupByKeys key l).find? (fun a => decide (key a = k)) =
      l.find? (fun a => decide (key a = k)) :=
  find?_dedupByKeysAux key k l [] (by simp)

theorem dedupByKeysAux_pairwise {α κ : Type} [DecidableEq κ] (key : α → κ) :
    ∀ (l : List α) (seen : List κ),
      (dedupByKeysAux key seen l).Pairwise (fun a b => key a ≠ key b) := by
  intro l
  induction l with
  | nil => intro seen; simp [dedupByKeysAux]
  | cons x xs ih =>
    intro seen
    simp only [dedupByKeysAux]
    by_cases hx : key x ∈ seen
    · rw [if_pos hx]
      exact ih seen
    · rw [if_neg hx]
      refine List.pairwise_cons.mpr ⟨?_, ih _⟩
      intro b hb
      have hnot := key_not_seen_of_mem_dedupByKeysAux key xs _ b hb
      exact fun he => hnot (he ▸ List.mem_cons_self _ _)

theorem dedupByKeys_pairwise {α κ : Type} [DecidableEq κ] (key : α → κ)
    (l : List α) :
    (dedupByKeys key l).Pairwise (fun a b => key a ≠ key b) :=
  dedupByKeysAux_pairwise key l []

theorem length_filter_le_one_of_pairwise {α κ : Type} [DecidableEq κ]
    {key : α → κ} {k : κ} (l : List α)
    (h : l.Pairwise (fun a b => key a ≠ key b)) :
    (l.filter (fun a => decide (key a = k))).length ≤ 1 := by
  induction l with
  | nil => simp
  | cons x xs ih =>
    rcases List.pairwise_cons.mp h with ⟨hx, hxs⟩
    by_cases hk : key x = k
    · have hnil : xs.filter (fun a => decide (key a = k)) = [] := by
        rw [List.filter_eq_nil_iff]
        intro a ha
        simp only [decide_eq_true_eq]
        intro hak
        exact hx a ha (by rw [hk, hak])
      simp [List.filter_cons, hk, hnil]
    · simpa [List.filter_cons, hk] using ih hxs

theorem find?_max_of_pairwise {α : Type} {f : α → Int} {p : α → Bool} :
    ∀ {l : List α} {r : α},
      l.Pairwise (fun a b => f b ≤ f a) → l.find? p = some r →
      ∀ r' ∈ l, p r' = true → f r' ≤ f r := by
  intro l
  induction l with
  | nil => intro r _ hf; simp [List.find?] at hf
  | cons x xs ih =>
    intro r hpw hf r' hr' hp'
    rcases List.pairwise_cons.mp hpw with ⟨hx, hxs⟩
    rw [List.find?_cons] at hf
    by_cases hpx : p x
    · simp only [hpx, cond_true, Option.some.injEq] at hf
      subst hf
      rcases List.mem_cons.mp hr' with rfl | h
      · exact le_refl _
      · exact hx r' h
    · simp only [hpx, cond_false] at hf
      rcases List.mem_cons.mp hr' with rfl | h
      · exact absurd hp' (by simp [hpx])
      · exact ih hxs hf r' h hp'

theorem find?_key_eq_some {α κ : Type} [DecidableEq κ] {key : α → κ} {k : κ}
    (l : List α) (h : k ∈ l.map key) :
    ∃ r, l.find? (fun a => decide (key a = k)) = some r ∧ key r = k ∧ r ∈ l := by
  cases hfind : l.find? (fun a => decide (key a = k)) with
  | none =>
    rw [List.find?_eq_none] at hfind
    rcases List.mem_map.mp h with ⟨x, hx, rfl⟩
    exact absurd (by simp : decide (key x = key x) = true) (by simpa using hfind x hx)
  | some r =>
    refine ⟨r, rfl, ?_, List.mem_of_find?_eq_some hfind⟩
    simpa using List.find?_some hfind

/-! ### The result-category codec (claims C3, C5, C6) -/

theorem dictGet_eq_none_of_not_mem {α β : Type} [BEq α] [LawfulBEq α]
    (d : List (α × β)) (k : α) (h : k ∉ d.map (·.1)) : dictGet d k = none := by
  have hfind : d.find? (fun p => p.1 == k) = none := by
    rw [List.find?_eq_none]
    intro p hp
    simp only [beq_iff_eq]
    intro hk
    exact h (hk ▸ List.mem_map_of_mem (·.1) hp)
  simp [dictGet, hfind]

/-- Case analysis of the `OPTION_PRIORITY`/`OPTION_SYMBOL` tables at an
arbitrary key: either both lookups miss, or both hit, with a priority in
`{0,…,4}` paired with one of the five display symbols. -/
theorem option_tables_total (k : Option String) :
    (dictGet OPTION_PRIORITY k = none ∧ dictGet OPTION_SYMBOL k = none) ∨
    (∃ p sym, dictGet OPTION_PRIORITY k = some p ∧
      dictGet OPTION_SYMBOL k = some sym ∧ 0 ≤ p ∧ p ≤ 4 ∧
      sym ∈ (["", "^", "#", "~", "+"] : List String)) := by
  rcases k with _ | v
  · right
    exact ⟨0, "", by decide, by decide, by decide, by decide, by decide⟩
  · by_cases h1 : v = "used"
    · subst h1; right
      exact ⟨4, "+", by decide, by decide, by decide, by decide, by decide⟩
    by_cases h2 : v = "historical"
    · subst h2; right
      exact ⟨3, "~", by decide, by decide, by decide, by decide, by decide⟩
    by_cases h3 : v = "cloned"
    · subst h3; right
      exact ⟨2, "#", by decide, by decide, by decide, by decide, by decide⟩
    by_cases h4 : v = "verify"
    · subst h4; right
      exact ⟨1, "^", by decide, by decide, by decide, by decide, by decide⟩
    by_cases h5 : v = ""
    · subst h5; right
      exact ⟨0, "", by decide, by decide, by decide, by decide, by decide⟩
    left
    have hm : (some v) ∉ OPTION_PRIORITY.map (·.1) := by
      intro hmem
      simp only [OPTION_PRIORITY, List.map_cons, List.map_nil, List.mem_cons,
        List.mem_singleton, Option.some.injEq, reduceCtorEq, or_false] at hmem
      rcases hmem with h | h | h | h | h <;> simp_all
    have hm' : (some v) ∉ OPTION_SYMBOL.map (·.1) := by
      have : OPTION_SYMBOL.map (·.1) = OPTION_PRIORITY.map (·.1) := by decide
      rw [this]; exact hm
    exact ⟨dictGet_eq_none_of_not_mem _ _ hm, dictGet_eq_none_of_not_mem _ _ hm'⟩

/-- **C6, counterexample.**  The result mapping is not whitespace-insensitive:
`" used"` trims (case-folded) to the known category `"used"`, yet the code —
which lowercases the result string but never strips it — does not recognise
it: its priority cell is `NaN` (`none`) rather than `4` and its symbol the
empty one rather than `"+"`, whereas `"used"` gets `4` / `"+"`. -/
theorem result_whitespace_counterexample :
    pyStrip (pyLower " used") = "used" ∧
    resultPrio (some " used") = none ∧
    resultPrio (some "used") = some 4 ∧
    resultSymbolFilled (some " used") = "" ∧
    resultSymbolFilled (some "used") = "+" := by
  refine ⟨by decide, by decide, by decide, by decide, by decide⟩

/-- **C6, amended.**  The mapping from a raw evidence result to a
priority/symbol is total and **case**-insensitive (but not
whitespace-insensitive): two result strings with the same case-folding are
mapped identically; every input gets a symbol among the five known marks and
an effective sort rank in `{-1,…,4}` (`NaN` ranking below every known
priority); and every input whose case-folded form is not one of the five
known categories — including a missing result — gets a `NaN` priority and
the empty symbol, without any error. -/
theorem result_codec_amended :
    (∀ s t : String, pyLower s = pyLower t →
      resultPrio (some s) = resultPrio (some t) ∧
      resultSymbolFilled (some s) = resultSymbolFilled (some t)) ∧
    (∀ result : Option String,
      resultSymbolFilled result ∈ (["", "^", "#", "~", "+"] : List String) ∧
      -1 ≤ rank (resultPrio result) ∧ rank (resultPrio result) ≤ 4) ∧
    (∀ result : Option String,
      result.map pyLower ∉ OPTION_PRIORITY.map (·.1) →
      resultPrio result = none ∧ resultSymbolFilled result = "") := by
  refine ⟨?_, ?_, ?_⟩
  · intro s t h
    constructor
    · show dictGet OPTION_PRIORITY (some (pyLower s)) =
        dictGet OPTION_PRIORITY (some (pyLower t))
      rw [h]
    · show (dictGet OPTION_SYMBOL (some (pyLower s))).getD "" =
        (dictGet OPTION_SYMBOL (some (pyLower t))).getD ""
      rw [h]
  · intro result
    rcases option_tables_total (result.map pyLower) with ⟨h1, h2⟩ |
      ⟨p, sym, h1, h2, h3, h4, h5⟩
    · refine ⟨?_, ?_, ?_⟩
      · simp [resultSymbolFilled, h2]
      · simp [rank, resultPrio, h1]
      · simp [rank, resultPrio, h1]
    · refine ⟨?_, ?_, ?_⟩
      · simpa [resultSymbolFilled, h2] using h5
      · simp only [rank, resultPrio, h1]; omega
      · simp only [rank, resultPrio, h1]; omega
  · intro result h
    have hsym : result.map pyLower ∉ OPTION_SYMBOL.map (·.1) := by
      have : OPTION_SYMBOL.map (·.1) = OPTION_PRIORITY.map (·.1) := by decide
      rw [this]; exact h
    exact ⟨dictGet_eq_none_of_not_mem _ _ h,
      by simp [resultSymbolFilled, dictGet_eq_none_of_not_mem _ _ hsym]⟩

/-- Witness for `result_codec_amended`: `"USED"` and `"used"` agree, and the
unrecognised string `"garbage"` collapses to `NaN` priority / empty symbol. -/
theorem result_codec_amended_witness :
    (resultPrio (some "USED") = resultPrio (some "used") ∧
      resultSymbolFilled (some "USED") = resultSymbolFilled (some "used")) ∧
    (resultPrio (some "garbage") = none ∧
      resultSymbolFilled (some "garbage") = "") :=
  ⟨result_codec_amended.1 "USED" "used" (by decide),
    result_codec_amended.2.2 (some "garbage") (by decide)⟩

/-! ### Claims about the Database Rollup -/

/-- **C3.**  Best-result reduction: for every `(device_key, db_key,
opt_key)` triple occurring in the evidence, the sorted-then-deduplicated
`df_best` keeps exactly one evidence row with that triple; the kept row is
an evidence row of that triple whose priority rank (with `NaN` ranked below
every known priority) is maximal among all evidence rows of the triple; and
the pivoted wide table holds that winning row's symbol in the triple's
cell. -/
theorem db_best_result_selection (ev : List EvRow) (t : String × String × String)
    (h : t ∈ ev.map tripleKey) :
    ((dfBest ev).filter (fun r => decide (tripleKey r = t))).length = 1 ∧
    ∃ r, (dfBest ev).find? (fun r => decide (tripleKey r = t)) = some r ∧
      r ∈ ev ∧ tripleKey r = t ∧
      (∀ r' ∈ ev, tripleKey r' = t → evRank r' ≤ evRank r) ∧
      pivotCell ev t = resultSymbolFilled r.result := by
  have hperm := sortDesc_perm evRank ev
  have hsorted := sortDesc_pairwise evRank ev
  have hmem_sorted : t ∈ (sortDesc evRank ev).map tripleKey := by
    rcases List.mem_map.mp h with ⟨x, hx, rfl⟩
    exact List.mem_map_of_mem _ (hperm.mem_iff.mpr hx)
  obtain ⟨r, hfind, hkey, hrmem⟩ := find?_key_eq_some (sortDesc evRank ev) hmem_sorted
  have hfind' : (dfBest ev).find? (fun r => decide (tripleKey r = t)) = some r := by
    rw [dfBest, find?_dedupByKeys]
    exact hfind
  constructor
  · have hle := @length_filter_le_one_of_pairwise EvRow (String × String × String)
      _ tripleKey t (dfBest ev)
      (by rw [dfBest]; exact dedupByKeys_pairwise tripleKey _)
    have hmem : r ∈ (dfBest ev).filter (fun r => decide (tripleKey r = t)) :=
      List.mem_filter.mpr ⟨List.mem_of_find?_eq_some hfind', by simp [hkey]⟩
    have hpos := List.length_pos_of_mem hmem
    omega
  · refine ⟨r, hfind', hperm.mem_iff.mp hrmem, hkey, ?_, ?_⟩
    · intro r' hr' ht'
      exact find?_max_of_pairwise hsorted hfind r' (hperm.mem_iff.mpr hr')
        (by simp [ht'])
    · rw [pivotCell, hfind']

/-- Witness for `db_best_result_selection` — the spec's Example 1: evidence
`[(dev1, db1, Partitioning, used), (dev1, db1, Partitioning, verify)]`
yields exactly one surviving row for the triple and the cell `"+"`. -/
theorem db_best_result_selection_witness :
    (("dev1", "db1", "partitioning") ∈
      ([⟨"dev1", "db1", "Partitioning", some "used", ""⟩,
        ⟨"dev1", "db1", "Partitioning", some "verify", ""⟩] :
          List EvRow).map tripleKey) ∧
    ((dfBest [⟨"dev1", "db1", "Partitioning", some "used", ""⟩,
        ⟨"dev1", "db1", "Partitioning", some "verify", ""⟩]).filter
      (fun r => decide (tripleKey r = ("dev1", "db1", "partitioning")))).length = 1 ∧
    pivotCell [⟨"dev1", "db1", "Partitioning", some "used", ""⟩,
        ⟨"dev1", "db1", "Partitioning", some "verify", ""⟩]
      ("dev1", "db1", "partitioning") = "+" :=
  ⟨by decide,
   (db_best_result_selection _ ("dev1", "db1", "partitioning") (by decide)).1,
   by decide⟩

/-- **C5.**  Open-world absence: an inventory row with no matching evidence
row for a given option key (in particular, with no evidence at all) carries
the empty symbol in that option column of the final Database Details frame
— never one of the four non-empty marks. -/
theorem db_open_world_absence (ev : List EvRow)
    (device_name database_name opt : String)
    (h : ∀ r ∈ ev, ¬(devKey r = normKey device_name ∧
      dbKey r = normKey database_name ∧ optKey r = opt)) :
    dbDetailsOptionCell ev device_name database_name opt = "" := by
  rw [dbDetailsOptionCell]
  split
  · have hnone : (dfBest ev).find?
        (fun r => decide (tripleKey r =
          (normKey device_name, normKey database_name, opt))) = none := by
      rw [List.find?_eq_none]
      intro x hx
      have hxev : x ∈ ev := (sortDesc_perm evRank ev).mem_iff.mp
        (mem_of_mem_dedupByKeys _ _ _ (by rwa [dfBest] at hx))
      simp only [decide_eq_true_eq]
      intro hk
      have h1 : devKey x = normKey device_name := congrArg (·.1) hk
      have h2 : dbKey x = normKey database_name := congrArg (·.2.1) hk
      have h3 : optKey x = opt := congrArg (·.2.2) hk
      exact h x hxev ⟨h1, h2, h3⟩
    rw [pivotCell, hnone]
  · rfl

/-- Witness for `db_open_world_absence`: an inventory pair `(dev1, db1)`
with evidence only about a different device gets the empty symbol. -/
theorem db_open_world_absence_witness :
    dbDetailsOptionCell [⟨"dev2", "db9", "Partitioning", some "used", ""⟩]
      "dev1" "db1" "partitioning" = "" :=
  db_open_world_absence _ "dev1" "db1" "partitioning" (by decide)

/-- **C7.**  The final deduplication keeps at most one row per raw
`(device_name, database_name)` pair, and whenever some row collapsing to
that pair carries a non-empty dbid, the surviving row carries a non-empty
dbid (rows are sorted with truthy `_keep` first and the first kept). -/
theorem db_dedup_prefers_dbid (rows : List FinalRow) (p : String × String) :
    ((dedupFinal rows).filter (fun r => decide (pairKey r = p))).length ≤ 1 ∧
    ((∃ r ∈ rows, pairKey r = p ∧ r.dbid ≠ "") →
      ∃ r, r ∈ dedupFinal rows ∧ pairKey r = p ∧ r.dbid ≠ "") := by
  constructor
  · exact length_filter_le_one_of_pairwise _
      (by rw [dedupFinal]; exact dedupByKeys_pairwise pairKey _)
  · rintro ⟨r0, hr0, hkey0, hdbid0⟩
    have hperm := sortDesc_perm keepRank rows
    have hmem : p ∈ (sortDesc keepRank rows).map pairKey :=
      hkey0 ▸ List.mem_map_of_mem pairKey (hperm.mem_iff.mpr hr0)
    obtain ⟨r, hfind, hkey, hrmem⟩ := find?_key_eq_some _ hmem
    refine ⟨r, ?_, hkey, ?_⟩
    · have hsome : (dedupFinal rows).find? (fun a => decide (pairKey a = p)) =
          some r := by
        rw [dedupFinal, find?_dedupByKeys]
        exact hfind
      exact List.mem_of_find?_eq_some hsome
    · have hmax := find?_max_of_pairwise (sortDesc_pairwise keepRank rows) hfind
        r0 (hperm.mem_iff.mpr hr0) (by simp [hkey0])
      have h1 : keepRank r0 = 1 := by simp [keepRank, hdbid0]
      by_contra hc
      have h0 : keepRank r = 0 := by simp [keepRank, hc]
      omega

/-- Witness for `db_dedup_prefers_dbid`: of two rows for `(dev1, db1)` —
one with empty dbid listed first, one with dbid `"123"` — the survivor
carries the non-empty dbid. -/
theorem db_dedup_prefers_dbid_witness :
    ∃ r, r ∈ dedupFinal [⟨"dev1", "db1", ""⟩, ⟨"dev1", "db1", "123"⟩] ∧
      pairKey r = ("dev1", "db1") ∧ r.dbid ≠ "" :=
  (db_dedup_prefers_dbid _ ("dev1", "db1")).2
    ⟨⟨"dev1", "db1", "123"⟩, by decide, by decide, by decide⟩

/-! ### Cell access through row updates -/

theorem dictGet_cons {α β : Type} [BEq α] (x : α × β) (d : List (α × β))
    (k : α) :
    dictGet (x :: d) k = if x.1 == k then some x.2 else dictGet d k := by
  simp only [dictGet, List.find?_cons]
  cases h : x.1 == k <;> simp [h]

theorem dictGet_dictInsert {α β : Type} [BEq α] [LawfulBEq α]
    (d : List (α × β)) (k k' : α) (v : β) :
    dictGet (dictInsert d k v) k' =
      if (k == k') = true then some v else dictGet d k' := by
  induction d with
  | nil => rw [dictInsert, dictGet_cons]
  | cons p ps ih =>
    rw [dictInsert]
    by_cases hp : (p.1 == k) = true
    · rw [if_pos hp, dictGet_cons, dictGet_cons]
      have hpk : p.1 = k := by simpa using hp
      by_cases hkk : (k == k') = true
      · simp [hkk]
      · have h2 : (p.1 == k') = false := by
          simp only [hpk]
          simpa using hkk
        simp [h2, hkk]
    · rw [if_neg hp, dictGet_cons, ih]
      by_cases hkk : (k == k') = true
      · have hke : k = k' := by simpa using hkk
        subst hke
        have h2 : (p.1 == k) = false := by simpa using hp
        simp [h2, hkk]
      · simp [hkk, dictGet_cons]

theorem rowGet_rowSet (r : Row) (c c' : String) (v : Cell) :
    rowGet (rowSet r c v) c' = if c = c' then v else rowGet r c' := by
  show ((dictGet (dictInsert r c v) c').getD Cell.na) = _
  rw [dictGet_dictInsert]
  by_cases h : c = c'
  · simp [h]
  · have hb : (c == c') = false := by simpa using h
    simp [hb, h, rowGet, rowGetD, dictGet]

theorem mem_insStr (x : String) (l : List String) (a : String) :
    a ∈ insStr x l ↔ a = x ∨ a ∈ l := by
  induction l with
  | nil => simp [insStr]
  | cons y ys ih =>
    simp only [insStr]
    split
    · simp [List.mem_cons]
    · simp only [List.mem_cons, ih]
      tauto

theorem mem_sortStrAsc (l : List String) (a : String) :
    a ∈ sortStrAsc l ↔ a ∈ l := by
  induction l with
  | nil => simp [sortStrAsc]
  | cons x xs ih => simp [sortStrAsc, mem_insStr, ih]

/-! ### Claims about the secondary-input fallbacks and frame effects -/

/-- **C9.**  Missing secondary inputs degrade to header-only sheets: with
the physical-host inventory unreadable and no declared-hardware file,
`build_hosts_df` returns a frame with zero data rows whose header carries
every expected host id column and every non-key column of the VM frame; and
with the cluster inventory absent or unparseable, `build_clusters_df`
returns a zero-row frame carrying every expected cluster id column and
every remaining hosts column. -/
theorem missing_secondary_inputs_degrade (vt dfh : DF) :
    ((buildHostsDf none vt).1.rows = [] ∧
     (∀ c ∈ emptyHostsDesiredIds, c ∈ (buildHostsDf none vt).1.cols) ∧
     (∀ c ∈ vt.cols, c ≠ "virtual_device" → c ≠ "physical_device" →
       c ∈ (buildHostsDf none vt).1.cols)) ∧
    ((buildClustersDf dfh none).rows = [] ∧
     (∀ c ∈ clusterIdBlock, c ∈ (buildClustersDf dfh none).cols) ∧
     (∀ c ∈ dfh.cols, c ∉ clusterIdBlock →
       c ∈ (buildClustersDf dfh none).cols)) := by
  refine ⟨⟨rfl, ?_, ?_⟩, rfl, ?_, ?_⟩
  · intro c hc
    exact List.mem_append_left _ hc
  · intro c hc h1 h2
    refine List.mem_append_right _ ?_
    exact (mem_sortStrAsc _ _).mpr (List.mem_filter.mpr ⟨hc, by simp [h1, h2]⟩)
  · intro c hc
    exact List.mem_append_left _ hc
  · intro c hc h
    refine List.mem_append_right _ ?_
    exact (mem_sortStrAsc _ _).mpr (List.mem_filter.mpr ⟨hc, by simpa using h⟩)

/-- Witness for `missing_secondary_inputs_degrade` at concrete frames and
columns. -/
theorem missing_secondary_inputs_degrade_witness :
    "cluster_name" ∈
      (buildHostsDf none ⟨["virtual_device", "partitioning"], []⟩).1.cols ∧
    "partitioning" ∈
      (buildHostsDf none ⟨["virtual_device", "partitioning"], []⟩).1.cols ∧
    "spatial" ∈
      (buildClustersDf ⟨["cluster_name", "spatial"], []⟩ none).cols :=
  ⟨(missing_secondary_inputs_degrade ⟨["virtual_device", "partitioning"], []⟩
      ⟨["cluster_name", "spatial"], []⟩).1.2.1 "cluster_name" (by decide),
   (missing_secondary_inputs_degrade ⟨["virtual_device", "partitioning"], []⟩
      ⟨["cluster_name", "spatial"], []⟩).1.2.2 "partitioning" (by decide)
        (by decide) (by decide),
   (missing_secondary_inputs_degrade ⟨["virtual_device", "partitioning"], []⟩
      ⟨["cluster_name", "spatial"], []⟩).2.2.2 "spatial" (by decide) (by decide)⟩

/-- **C10, counterexample.**  Not every call of `build_hosts_df` modifies
the caller's `df_virtual_devices`: when the physical-host inventory is
unreadable and no declaration file exists, the function returns the empty
sheet before the sizing coercion runs, so a non-numeric sizing cell of the
caller's frame survives the call unchanged — although the coercion, had it
run on this frame, would have changed it. -/
theorem build_hosts_no_mutation_counterexample :
    (buildHostsDf none ⟨["virtual_device", "cpu_threads"],
      [[("virtual_device", Cell.s "vm1"), ("cpu_threads", Cell.s "abc")]]⟩).2 =
      ⟨["virtual_device", "cpu_threads"],
       [[("virtual_device", Cell.s "vm1"), ("cpu_threads", Cell.s "abc")]]⟩ ∧
    coerceSizing ⟨["virtual_device", "cpu_threads"],
      [[("virtual_device", Cell.s "vm1"), ("cpu_threads", Cell.s "abc")]]⟩ ≠
      ⟨["virtual_device", "cpu_threads"],
       [[("virtual_device", Cell.s "vm1"), ("cpu_threads", Cell.s "abc")]]⟩ :=
  ⟨rfl, by decide⟩

/-- **C10, amended.**  The builders are not read-only in their frame
arguments, but `build_hosts_df` mutates only on the primary path: every
call of `build_virtual_devices_df` with a `df_db_details` supplied leaves
the caller's table with a `virtual_device` column written from
`device_name`; every call of `build_hosts_df` that reads the physical-host
inventory leaves the caller's `df_virtual_devices` with its present sizing
columns coerced to integers (non-numeric and empty values becoming 0);
and a call of `build_hosts_df` on the empty-skeleton path leaves the
caller's frame untouched.  The final conjunct exhibits a concrete table
that the `virtual_device` write actually changes. -/
theorem builders_mutate_arguments_amended :
    (∀ (vm : DF) (al : Option (List String)) (db : DF),
      (buildVirtualDevicesDf vm al (some db)).2 = some (setVirtualDeviceCol db)) ∧
    (∀ (sp vt : DF), (buildHostsDf (some sp) vt).2 = coerceSizing vt) ∧
    (∀ vt : DF, (buildHostsDf none vt).2 = vt) ∧
    setVirtualDeviceCol ⟨["device_name"], [[("device_name", Cell.s "vm1")]]⟩ ≠
      ⟨["device_name"], [[("device_name", Cell.s "vm1")]]⟩ := by
  refine ⟨?_, ?_, ?_, by decide⟩
  · intro vm al db
    cases al <;> rfl
  · intro sp vt
    rfl
  · intro vt
    rfl

/-- **C1 (code bug).**  The Virtual Device Rollup does **not** assign the
maximum-priority symbol: the aggregation ranks the symbols with
`VM_OPTION_PRIORITY.get(sym, 0)`, a dict keyed by result categories
(`"used"`, …), so every display symbol scores 0 and Python's `max` returns
the group's **first** cell.  On the spec's Example 2 (vm1 hosting db2 with
Partitioning `""` and db1 with Partitioning `"+"`), the builder returns
`""` when the empty-symbol row comes first and `"+"` when it comes second —
order-dependent, and not the maximum-priority symbol `"+"`. -/
theorem vm_rollup_ignores_priority_bug :
    ((buildVirtualDevicesDf ⟨["device_name"], [[("device_name", Cell.s "vm1")]]⟩
        none (some ⟨["device_name", "database_name", "partitioning"],
          [[("device_name", Cell.s "vm1"), ("database_name", Cell.s "db2"),
            ("partitioning", Cell.s "")],
           [("device_name", Cell.s "vm1"), ("database_name", Cell.s "db1"),
            ("partitioning", Cell.s "+")]]⟩)).1.rows.map
      (fun r => rowGet r "partitioning")) = [Cell.s ""] ∧
    ((buildVirtualDevicesDf ⟨["device_name"], [[("device_name", Cell.s "vm1")]]⟩
        none (some ⟨["device_name", "database_name", "partitioning"],
          [[("device_name", Cell.s "vm1"), ("database_name", Cell.s "db1"),
            ("partitioning", Cell.s "+")],
           [("device_name", Cell.s "vm1"), ("database_name", Cell.s "db2"),
            ("partitioning", Cell.s "")]]⟩)).1.rows.map
      (fun r => rowGet r "partitioning")) = [Cell.s "+"] ∧
    (Cell.s "" : Cell) ≠ Cell.s "+" :=
  ⟨by decide, by decide, by decide⟩

theorem rowGetD_rowSet (r : Row) (c c' : String) (v d : Cell) :
    rowGetD (rowSet r c v) c' d = if c = c' then v else rowGetD r c' d := by
  show ((dictGet (dictInsert r c v) c').getD d) = _
  rw [dictGet_dictInsert]
  by_cases h : c = c'
  · simp [h]
  · have hb : (c == c') = false := by simpa using h
    simp [hb, h, rowGetD, dictGet]

theorem rowGetD_ite (b : Prop) [Decidable b] (x y : Row) (c : String)
    (d : Cell) :
    rowGetD (if b then x else y) c d =
      if b then rowGetD x c d else rowGetD y c d := by
  split <;> rfl

set_option maxHeartbeats 2000000 in
/-- **C8.**  The VMware sizing-correction heuristic: a row whose
virtualization type is not the string `"VMWare"` (case-insensitively) is
left completely unchanged by the fix-plus-override pass; on a VMware row
with a parseable `raw_data` payload, a reported processor count ≤ 1 ends as
the payload's `"# CPU"` value, a core count ≤ 1 as `"# Cores"`, and a
thread count ≤ 1 as 2 × `"# Cores"` (for a non-negative payload count, as
counts are). -/
theorem vmware_sizing_correction (r : Row) (j : List (String × PVal))
    (cp c : Int) :
    (isVmwareCell (rowGet r "virtualization_type") = false → hostRowFix r = r) ∧
    (isVmwareCell (rowGet r "virtualization_type") = true →
      rowGet r "raw_data" = Cell.blob j →
      ((dictGet j "# CPU" = some (PVal.i cp) →
        cellLeOne (rowGetD r "total_number_of_processors" (Cell.i 0)) = true →
        rowGet (hostRowFix r) "total_number_of_processors" = Cell.i cp) ∧
       (dictGet j "# Cores" = some (PVal.i c) →
        cellLeOne (rowGetD r "total_number_of_cores" (Cell.i 0)) = true →
        rowGet (hostRowFix r) "total_number_of_cores" = Cell.i c) ∧
       (dictGet j "# Cores" = some (PVal.i c) → 0 ≤ c →
        cellLeOne (rowGetD r "total_number_of_threads" (Cell.i 0)) = true →
        rowGet (hostRowFix r) "total_number_of_threads" = Cell.i (2 * c)))) := by
  constructor
  · intro h
    simp [hostRowFix, fixVmwareRow, h]
  · intro hg hraw
    simp only [rowGet] at hg hraw
    refine ⟨?_, ?_, ?_⟩
    · intro hcp hle
      simp [hostRowFix, fixVmwareRow, overrideVmwareSizing, hg, hraw, hle, hcp,
        rowGet, rowGetD_ite, rowGetD_rowSet, pvalToCell]
    · intro hc hle
      simp [hostRowFix, fixVmwareRow, overrideVmwareSizing, hg, hraw, hle, hc,
        rowGet, rowGetD_ite, rowGetD_rowSet, pvalToCell]
    · intro hc hge hle
      simp [hostRowFix, fixVmwareRow, overrideVmwareSizing, hg, hraw, hle, hc,
        rowGet, rowGetD_ite, rowGetD_rowSet, pvalToCell, toIntPy]
      omega

/-- Witness for `vmware_sizing_correction` — the spec's Example 5: a row
with `total_number_of_processors = 1`, `virtualization_type = "VMWare"`,
and a payload reporting `"# CPU": 4` ends with processor count 4. -/
theorem vmware_sizing_correction_witness :
    rowGet (hostRowFix [("virtualization_type", Cell.s "VMWare"),
      ("total_number_of_processors", Cell.i 1),
      ("raw_data", Cell.blob [("# CPU", PVal.i 4)])])
      "total_number_of_processors" = Cell.i 4 :=
  ((vmware_sizing_correction [("virtualization_type", Cell.s "VMWare"),
      ("total_number_of_processors", Cell.i 1),
      ("raw_data", Cell.blob [("# CPU", PVal.i 4)])]
      [("# CPU", PVal.i 4)] 4 0).2 (by decide) (by decide)).1
    (by decide) (by decide)

/-! ### Grouped-frame machinery for the Host Rollup claims -/

theorem filter_map_comm {α β : Type} (f : α → β) (p : β → Bool) (l : List α) :
    (l.map f).filter p = (l.filter (fun a => p (f a))).map f := by
  induction l with
  | nil => rfl
  | cons x xs ih =>
    by_cases hx : p (f x) = true <;>
      simp [List.filter_cons, hx, ih]

theorem filter_eq_singleton_of_pairwise {α : Type} [DecidableEq α]
    (l : List α) (d : α) (hp : l.Pairwise (· ≠ ·)) (hd : d ∈ l) :
    l.filter (fun x => decide (x = d)) = [d] := by
  induction l with
  | nil => cases hd
  | cons x xs ih =>
    rcases List.pairwise_cons.mp hp with ⟨hx, hxs⟩
    rcases List.mem_cons.mp hd with rfl | hd
    · have hnil : xs.filter (fun a => decide (a = d)) = [] := by
        rw [List.filter_eq_nil_iff]
        intro a ha
        simp only [decide_eq_true_eq]
        exact fun he => hx a ha he.symm
      simp [List.filter_cons, hnil]
    · have hxd : x ≠ d := hx d hd
      simp [List.filter_cons, hxd, ih hxs hd]

theorem flatten_map_singleton {α β : Type} (g : α → List β) (l : List α) :
    (l.map g).flatten = l.flatMap g := by
  simp [List.flatMap]

theorem rowGetD_cons (k : String) (v : Cell) (r : Row) (c : String) (d : Cell) :
    rowGetD ((k, v) :: r) c d = if (k == c) = true then v else rowGetD r c d := by
  show (dictGet ((k, v) :: r) c).getD d = _
  rw [dictGet_cons]
  split <;> rfl

theorem rowGet_mapAssoc_id (cols : List String) (g : String → Cell)
    (c : String) (hc : c ∈ cols) :
    rowGet (cols.map (fun cc => (cc, g cc))) c = g c := by
  induction cols with
  | nil => cases hc
  | cons x xs ih =>
    rw [List.map_cons]
    by_cases hx : x = c
    · subst hx
      simp [rowGet, rowGetD_cons]
    · have hb : (x == c) = false := by simpa using hx
      rcases List.mem_cons.mp hc with rfl | hc
      · exact absurd rfl hx
      · simp only [rowGet, rowGetD_cons, hb, Bool.false_eq_true, if_false]
        exact ih hc

/-- The rows of a grouped frame, filtered to one group key:
exactly the key's row. -/
theorem keyedFrame_filter (k : String) (cols : List String) (keys : List Cell)
    (val : String → Cell → Cell) (d : Cell)
    (hp : keys.Pairwise (· ≠ ·)) (hd : d ∈ keys) :
    (keys.map (fun d' =>
      (((k, d') :: cols.map (fun c => (c, val c d'))) : Row))).filter
        (fun r => decide (rowGet r k = d)) =
      [(k, d) :: cols.map (fun c => (c, val c d))] := by
  rw [filter_map_comm]
  have hcongr : ∀ d' ∈ keys,
      (decide (rowGet (((k, d') :: cols.map (fun c => (c, val c d'))) : Row) k = d))
        = decide (d' = d) := by
    intro d' _
    have : rowGet (((k, d') :: cols.map (fun c => (c, val c d'))) : Row) k = d' := by
      simp [rowGet, rowGetD_cons]
    rw [this]
  rw [List.filter_congr hcongr, filter_eq_singleton_of_pairwise keys d hp hd]
  rfl

theorem groupKeys_pairwise (rows : List Row) (c : String) :
    (groupKeys rows c).Pairwise (· ≠ ·) := by
  have h := dedupByKeys_pairwise (id : Cell → Cell) (rows.map (fun r => rowGet r c))
  exact List.Pairwise.sublist (List.filter_sublist _) h

theorem init_le_foldl_max : ∀ (l : List Int) (a : Int), a ≤ l.foldl max a := by
  intro l
  induction l with
  | nil => intro a; exact le_refl a
  | cons y ys ih => intro a; exact le_trans (le_max_left a y) (ih (max a y))

theorem le_foldl_max (l : List Int) :
    ∀ (a x : Int), x = a ∨ x ∈ l → x ≤ l.foldl max a := by
  induction l with
  | nil =>
    intro a x h
    rcases h with rfl | h
    · exact le_refl x
    · cases h
  | cons y ys ih =>
    intro a x h
    rw [List.foldl_cons]
    rcases h with rfl | h
    · exact le_trans (le_max_left x y) (init_le_foldl_max ys _)
    · rcases List.mem_cons.mp h with rfl | h
      · exact le_trans (le_max_right a x) (init_le_foldl_max ys _)
      · exact ih (max a y) x (Or.inr h)

theorem le_intListMax (l : List Int) (x : Int) (hx : x ∈ l) :
    x ≤ intListMax l := by
  match l with
  | [] => cases hx
  | a :: as =>
    show x ≤ as.foldl max a
    rcases List.mem_cons.mp hx with rfl | hx
    · exact le_foldl_max as x x (Or.inl rfl)
    · exact le_foldl_max as a x (Or.inr hx)

theorem foldl_rowSet_get_notmem (cols : List String)
    (f : Row → String → Cell) (r : Row) (c : String) (h : c ∉ cols) :
    rowGet (cols.foldl (fun acc cc => rowSet acc cc (f acc cc)) r) c =
      rowGet r c := by
  induction cols generalizing r with
  | nil => rfl
  | cons x xs ih =>
    have hx : x ≠ c := fun he => h (he ▸ List.mem_cons_self _ _)
    rw [List.foldl_cons, ih _ (fun hc => h (List.mem_cons_of_mem _ hc)),
      rowGet_rowSet]
    simp [hx]

theorem foldl_rowSet_get_mem (cols : List String)
    (g : Cell → Cell) (r : Row) (c : String) (hnd : cols.Nodup)
    (hc : c ∈ cols) :
    rowGet (cols.foldl (fun acc cc => rowSet acc cc (g (rowGet acc cc))) r) c =
      g (rowGet r c) := by
  induction cols generalizing r with
  | nil => cases hc
  | cons x xs ih =>
    rcases List.nodup_cons.mp hnd with ⟨hxs, hnd'⟩
    rw [List.foldl_cons]
    by_cases hx : x = c
    · subst hx
      rw [foldl_rowSet_get_notmem xs _ _ x hxs, rowGet_rowSet]
      simp
    · rcases List.mem_cons.mp hc with rfl | hc
      · exact absurd rfl hx
      · rw [ih _ hnd' hc, rowGet_rowSet]
        simp [hx]

/-- The grouping key column is never an option column (it is in the
exclusion list). -/
theorem pd_not_in_hostOptionCols (vtCols : List String) :
    "physical_device" ∉ hostOptionCols vtCols := by
  intro h
  have := List.of_mem_filter h
  simp only [decide_eq_true_eq] at this
  exact this (List.mem_append_left _ (by decide))

/-- **C4, amended.**  Host Rollup aggregation: for every physical device
(group key) of the VM frame, each grouped frame carries exactly one row;
in the option frame the device's cell for an option column is the maximum
of its member VMs' symbols converted to priorities (genuinely an upper
bound of every member's priority), and in the sizing frame the device's
cell for a present sizing column — the thread-count columns
`number_of_virtual_threads`/`cpu_threads`/`lscpu_total_threads` — is the
**sum** over its member VMs.  (`build_hosts_df` merges these two frames and
converts the option priorities back to symbols; virtual core counts are in
the exclusion list and are neither summed nor maximized.) -/
theorem host_rollup_max_and_sum_amended (vt : DF) (d : Cell) (c s : String)
    (hnd : vt.cols.Nodup)
    (hd : d ∈ groupKeys vt.rows "physical_device")
    (hc : c ∈ hostOptionCols vt.cols)
    (hs : s ∈ sizingColsVm vt.cols) :
    ((dfOptsMax vt).rows.filter
      (fun r => decide (rowGet r "physical_device" = d))).length = 1 ∧
    ((dfSizingSum vt).rows.filter
      (fun r => decide (rowGet r "physical_device" = d))).length = 1 ∧
    (∀ r ∈ (dfOptsMax vt).rows, rowGet r "physical_device" = d →
      rowGet r c = Cell.i (intListMax (((vt.rows.filter (fun rr =>
        decide (rowGet rr "physical_device" = d))).map
          (fun rr => symPrioCell (rowGet rr c))))) ∧
      (∀ rr ∈ vt.rows, rowGet rr "physical_device" = d →
        symPrioCell (rowGet rr c) ≤ cellToInt0 (rowGet r c))) ∧
    (∀ r ∈ (dfSizingSum vt).rows, rowGet r "physical_device" = d →
      rowGet r s = Cell.i ((vt.rows.filter (fun rr =>
        decide (rowGet rr "physical_device" = d))).foldl
          (fun acc rr => acc + cellToInt0 (rowGet rr s)) 0)) := by
  have hpd_oc := pd_not_in_hostOptionCols vt.cols
  have hcpd : c ≠ "physical_device" := fun he => hpd_oc (he ▸ hc)
  have hocnd : (hostOptionCols vt.cols).Nodup := hnd.filter _
  have hspd : s ≠ "physical_device" := by
    intro he
    have hmem : s ∈ possibleSizing := List.mem_of_mem_filter hs
    rw [he] at hmem
    exact absurd hmem (by decide)
  have hscne : (sizingColsVm vt.cols).isEmpty = false := by
    cases hsc : sizingColsVm vt.cols with
    | nil => rw [hsc] at hs; cases hs
    | cons a as => rfl
  have hoptfilter := keyedFrame_filter "physical_device" (hostOptionCols vt.cols)
    (groupKeys vt.rows "physical_device")
    (fun cc d' => Cell.i (intListMax (((dfPrior vt).rows.filter (fun r =>
      decide (rowGet r "physical_device" = d'))).map
        (fun r => cellToInt0 (rowGet r cc))))) d
    (groupKeys_pairwise _ _) hd
  have hprfilter : ∀ cc, cc ∈ hostOptionCols vt.cols →
      ((dfPrior vt).rows.filter (fun r =>
        decide (rowGet r "physical_device" = d))).map
          (fun r => cellToInt0 (rowGet r cc)) =
      (vt.rows.filter (fun rr =>
        decide (rowGet rr "physical_device" = d))).map
          (fun rr => symPrioCell (rowGet rr cc)) := by
    intro cc hcc
    show ((vt.rows.map _).filter _).map _ = _
    rw [filter_map_comm, List.map_map]
    have hpredeq : ∀ a ∈ vt.rows,
        (decide (rowGet ((hostOptionCols vt.cols).foldl
          (fun acc k => rowSet acc k (Cell.i (symPrioCell (rowGet acc k)))) a)
          "physical_device" = d) : Bool) =
        decide (rowGet a "physical_device" = d) := by
      intro a _
      rw [foldl_rowSet_get_notmem (hostOptionCols vt.cols)
        (fun acc k => Cell.i (symPrioCell (rowGet acc k))) a
        "physical_device" hpd_oc]
    rw [List.filter_congr hpredeq]
    apply List.map_congr_left
    intro a _
    show cellToInt0 (rowGet ((hostOptionCols vt.cols).foldl _ a) cc) = _
    rw [foldl_rowSet_get_mem (hostOptionCols vt.cols)
      (fun cell => Cell.i (symPrioCell cell)) a cc hocnd hcc]
    rfl
  have hsizrows : (dfSizingSum vt).rows =
      (groupKeys vt.rows "physical_device").map (fun d' =>
        (("physical_device", d') :: (sizingColsVm vt.cols).map (fun cc =>
          (cc, Cell.i ((vt.rows.filter (fun r =>
            decide (rowGet r "physical_device" = d'))).foldl
              (fun acc r => acc + cellToInt0 (rowGet r cc)) 0))) : Row)) := by
    show (if (sizingColsVm vt.cols).isEmpty then (_ : DF) else _).rows = _
    rw [hscne]
    rfl
  have hsizfilter := keyedFrame_filter "physical_device" (sizingColsVm vt.cols)
    (groupKeys vt.rows "physical_device")
    (fun cc d' => Cell.i ((vt.rows.filter (fun r =>
      decide (rowGet r "physical_device" = d'))).foldl
        (fun acc r => acc + cellToInt0 (rowGet r cc)) 0)) d
    (groupKeys_pairwise _ _) hd
  have hoptrows : (dfOptsMax vt).rows =
      (groupKeys vt.rows "physical_device").map (fun d' =>
        (("physical_device", d') :: (hostOptionCols vt.cols).map (fun cc =>
          (cc, Cell.i (intListMax (((dfPrior vt).rows.filter (fun r =>
            decide (rowGet r "physical_device" = d'))).map
              (fun r => cellToInt0 (rowGet r cc)))))) : Row)) := rfl
  refine ⟨?_, ?_, ?_, ?_⟩
  · rw [hoptrows, hoptfilter]
    rfl
  · rw [hsizrows, hsizfilter]
    rfl
  · intro r hr hrd
    have hrmem : r ∈ ((dfOptsMax vt).rows.filter
        (fun r => decide (rowGet r "physical_device" = d))) :=
      List.mem_filter.mpr ⟨hr, by simp [hrd]⟩
    rw [hoptrows, hoptfilter] at hrmem
    have hreq := List.mem_singleton.mp hrmem
    have hb : ("physical_device" == c) = false := by simpa using hcpd.symm
    have hcell : rowGet r c = Cell.i (intListMax (((dfPrior vt).rows.filter
        (fun r => decide (rowGet r "physical_device" = d))).map
          (fun r => cellToInt0 (rowGet r c)))) := by
      rw [hreq]
      show rowGetD _ c Cell.na = _
      rw [rowGetD_cons, hb]
      simp only [Bool.false_eq_true, if_false]
      exact rowGet_mapAssoc_id (hostOptionCols vt.cols) _ c hc
    rw [hprfilter c hc] at hcell
    refine ⟨hcell, ?_⟩
    intro rr hrr hrrd
    rw [hcell]
    show symPrioCell (rowGet rr c) ≤ intListMax _
    apply le_intListMax
    exact List.mem_map_of_mem _ (List.mem_filter.mpr ⟨hrr, by simp [hrrd]⟩)
  · intro r hr hrd
    have hrmem : r ∈ ((dfSizingSum vt).rows.filter
        (fun r => decide (rowGet r "physical_device" = d))) :=
      List.mem_filter.mpr ⟨hr, by simp [hrd]⟩
    rw [hsizrows, hsizfilter] at hrmem
    have hreq := List.mem_singleton.mp hrmem
    have hb : ("physical_device" == s) = false := by simpa using hspd.symm
    rw [hreq]
    show rowGetD _ s Cell.na = _
    rw [rowGetD_cons, hb]
    simp only [Bool.false_eq_true, if_false]
    exact rowGet_mapAssoc_id (sizingColsVm vt.cols) _ s hs


/-- Witness for `host_rollup_max_and_sum_amended` at the Example 3 frames:
`host1` has exactly one aggregated row in each grouped frame. -/
theorem host_rollup_max_and_sum_amended_witness :
    ((dfOptsMax hostExampleVms).rows.filter
      (fun r => decide (rowGet r "physical_device" = Cell.s "host1"))).length
        = 1 ∧
    ((dfSizingSum hostExampleVms).rows.filter
      (fun r => decide (rowGet r "physical_device" = Cell.s "host1"))).length
        = 1 :=
  ⟨(host_rollup_max_and_sum_amended hostExampleVms (Cell.s "host1")
      "partitioning" "cpu_threads" (by decide) (by decide) (by decide)
      (by decide)).1,
   (host_rollup_max_and_sum_amended hostExampleVms (Cell.s "host1")
      "partitioning" "cpu_threads" (by decide) (by decide) (by decide)
      (by decide)).2.1⟩

/-- **C4, counterexample.**  On the spec's Example 3 input — vm1 and vm2 on
host1 with Partitioning `"+"`/`"~"`, thread counts 2/4 and core counts
1/1 — the Host Rollup output row for host1 has Partitioning `"+"` as
claimed, but its summed sizing cell is the thread-count column
`cpu_threads = 6`; no core-count sum exists in the output
(`number_of_virtual_cores` is excluded from aggregation and vanishes), and
6 is not the sum 1 + 1 of the VMs' virtual core counts. -/
theorem host_sizing_is_threads_not_cores_counterexample :
    ((buildHostsFromSpecs hostExampleSpecs hostExampleVms).1.rows.map
      (fun r => rowGet r "cpu_threads")) = [Cell.i 6] ∧
    ((buildHostsFromSpecs hostExampleSpecs hostExampleVms).1.rows.map
      (fun r => rowGet r "partitioning")) = [Cell.s "+"] ∧
    "number_of_virtual_cores" ∉
      (buildHostsFromSpecs hostExampleSpecs hostExampleVms).1.cols ∧
    (6 : Int) ≠ 1 + 1 :=
  ⟨by decide, by decide, by decide, by decide⟩
